import Mathlib

/-!
# FeedClean: a shallow embedding of `feedclean.go`

The program authorizes against the FeedWrangler API, evaluates every
subscribed feed for staleness, optionally removes the stale ones and logs
out.  Its only effects are HTTP GET requests, log lines and a process-wide
session token, so the embedding is a state-passing program monad:

* the remote world is a deterministic environment `Env` that answers a
  request given all the requests sent before it;
* every function of the source is a `Prog`, a function from the mutable
  `World` (the `token` global and the request history) to a `Step`: the
  events emitted in order, the new world and either a return value or a Go
  panic.

Globals that are assigned once in `main` before the first call (`email`,
`password`, `clientKey`, `commit`, `since`) are passed as parameters.
-/

namespace FeedClean

/-! ## Data model -/

/-- Go `type Feed struct`. -/
structure Feed where
  Title : String
  FeedId : Int
  FeedURL : String
  SiteURL : String
deriving DecidableEq, Repr

/-- Go `type Response struct`, the envelope every API answer is decoded into. -/
structure Response where
  Token : String
  Error : String
  Result : String
  Feeds : List Feed
  Count : Int
deriving DecidableEq, Repr

/-- The GET requests the program builds.  The four API requests carry their
query parameters (`url.Values`); `get` is the plain `http.Get(f.FeedURL)` of
`Feed.Check`. -/
inductive Request where
  | authorize (email password clientKey : String)
  | listIds (accessToken : String) (feedId : Int) (createdSince : Int)
  | removeFeed (accessToken : String) (feedId : Int)
  | logout (accessToken : String)
  | get (url : String)
deriving DecidableEq, Repr

/-- What reading and decoding a response body yields: `ioutil.ReadAll` fails,
or it succeeds and `json.Unmarshal` fails, or both succeed and the envelope
is filled in. -/
inductive Body where
  | unreadable (err : String)
  | malformed (err : String)
  | envelope (r : Response)
deriving DecidableEq, Repr

/-- The part of Go `*http.Response` the program reads. -/
structure HttpResponse where
  StatusCode : Int
  Body : Body
deriving DecidableEq, Repr

/-- What `http.Get` returns.  `ok resp` is the pair `(resp, nil)`: when the
error is nil the response is not.  `fail err resp` is the pair `(resp, err)`
with a non-nil error: `resp` is `none` (Go `nil`) on a transport error and
present only when the redirect policy stopped the request. -/
inductive GetResult where
  | ok (resp : HttpResponse)
  | fail (err : String) (resp : Option HttpResponse)
deriving DecidableEq, Repr

/-- The first component of the pair `(resp, err)`; `none` is Go `nil`. -/
def GetResult.resp : GetResult → Option HttpResponse
  | GetResult.ok resp => some resp
  | GetResult.fail _ resp => resp

/-- The second component of the pair `(resp, err)`; `none` is Go `nil`. -/
def GetResult.err : GetResult → Option String
  | GetResult.ok _ => none
  | GetResult.fail err _ => some err

/-- The remote world: the answer to a request, given the requests sent
before it (oldest first). -/
abbrev Env := List Request → Request → GetResult

/-- The ways the process aborts.  All but `nilDereference` are `log.Panicf`
calls of the source, carrying the values substituted into the format. -/
inductive Panic where
  | emailRequired
  | passwordRequired
  | clientRequired
  | errorCaught (msg err : String)
  | httpError (code : Int) (place : String)
  | responseError (result error : String)
  | logoutHttpError (code : Int)
  | nilDereference
deriving DecidableEq, Repr

/-- The log lines of the source, one constructor per format string, carrying
the values substituted into it. -/
inductive LogMsg where
  | dryRunStart
  | dryRunEnd
  | authorizing
  | authorizeSuccess (feeds : Nat)
  | checking
  | staleFound (n : Nat)
  | deleting (n : Nat)
  | stale (title : String)
  | delete (title : String)
  | loggingOut
  | logoutGetError (err : String)
  | errorResolving (url err : String)
  | httpErrorResolving (code : Int) (url : String)
  | panicf (p : Panic)
deriving DecidableEq, Repr

/-- Observable events of a run, in order. -/
inductive Event where
  | request (r : Request)
  | log (m : LogMsg)
  | usage
deriving DecidableEq, Repr

/-- The mutable state: the `token` global and the requests sent so far. -/
structure World where
  token : String
  sent : List Request
deriving DecidableEq, Repr

/-- How a call ends: it returns a value or it panics. -/
inductive Outcome (α : Type) where
  | ret (a : α)
  | panic (p : Panic)
deriving DecidableEq, Repr

/-- The result of running a program from a world. -/
structure Step (α : Type) where
  out : List Event
  world : World
  res : Outcome α
deriving DecidableEq, Repr

/-- A program of the embedding. -/
def Prog (α : Type) : Type := World → Step α

/-- Return without effect. -/
def Prog.pure {α : Type} (a : α) : Prog α := fun w => ⟨[], w, Outcome.ret a⟩

/-- Sequencing: a panic of the first program ends the run. -/
def Prog.bind {α β : Type} (m : Prog α) (f : α → Prog β) : Prog β := fun w =>
  match m w with
  | ⟨o, w1, Outcome.ret a⟩ => ⟨o ++ (f a w1).out, (f a w1).world, (f a w1).res⟩
  | ⟨o, w1, Outcome.panic p⟩ => ⟨o, w1, Outcome.panic p⟩

instance : Monad Prog where
  pure := Prog.pure
  bind := Prog.bind

/-- Go `log.Printf`. -/
def logPrintf (m : LogMsg) : Prog Unit := fun w => ⟨[Event.log m], w, Outcome.ret ()⟩

/-- Go `log.Panicf`: print the message, then panic. -/
def logPanicf {α : Type} (p : Panic) : Prog α := fun w =>
  ⟨[Event.log (LogMsg.panicf p)], w, Outcome.panic p⟩

/-- Go run-time panic on dereferencing a nil `*http.Response`. -/
def deref {α : Type} : Option α → Prog α
  | some a => Prog.pure a
  | none => fun w => ⟨[], w, Outcome.panic Panic.nilDereference⟩

/-- Go `flag.Usage()`. -/
def flagUsage : Prog Unit := fun w => ⟨[Event.usage], w, Outcome.ret ()⟩

/-- Go `http.Get`: the request is recorded and answered by the environment. -/
def httpGet (env : Env) (r : Request) : Prog GetResult := fun w =>
  ⟨[Event.request r], ⟨w.token, w.sent ++ [r]⟩, Outcome.ret (env w.sent r)⟩

/-- Read the `token` global. -/
def getToken : Prog String := fun w => ⟨[], w, Outcome.ret w.token⟩

/-- Assign the `token` global. -/
def setToken (t : String) : Prog Unit := fun w => ⟨[], ⟨t, w.sent⟩, Outcome.ret ()⟩

/-- Go `len` of a string: its length in bytes. -/
def len (s : String) : Nat := s.utf8ByteSize

/-- Go `ioutil.ReadAll(resp.Body)`, as the pair `(body, err)`. -/
def readAll (b : Body) : Body × Option String :=
  match b with
  | Body.unreadable e => (b, some e)
  | _ => (b, none)

/-- The zero value of `Response`. -/
def Response.zero : Response := ⟨"", "", "", [], 0⟩

/-- Go `json.Unmarshal(respBody, &r)` on a zero `r`, as the pair `(r, err)`. -/
def jsonUnmarshal (b : Body) : Response × Option String :=
  match b with
  | Body.envelope r => (r, none)
  | Body.malformed e => (Response.zero, some e)
  | Body.unreadable _ => (Response.zero, some "unexpected end of JSON input")

/-- Go `unicode.IsSpace`. -/
def isSpace (c : Char) : Bool :=
  let n := c.toNat
  n == 0x09 || n == 0x0A || n == 0x0B || n == 0x0C || n == 0x0D || n == 0x20 ||
  n == 0x85 || n == 0xA0 || n == 0x1680 || (0x2000 ≤ n && n ≤ 0x200A) ||
  n == 0x2028 || n == 0x2029 || n == 0x202F || n == 0x205F || n == 0x3000

/-- Go `strings.TrimSpace`. -/
def trimSpace (s : String) : String :=
  String.mk ((s.data.dropWhile isSpace).reverse.dropWhile isSpace).reverse

/-- Wrap-around of Go `int64` arithmetic. -/
def wrap64 (x : Int) : Int :=
  (x + 9223372036854775808) % 18446744073709551616 - 9223372036854775808

/-- The values an `int64` holds. -/
def isInt64 (x : Int) : Prop := -9223372036854775808 ≤ x ∧ x ≤ 9223372036854775807

instance (x : Int) : Decidable (isInt64 x) := by unfold isInt64; infer_instance

/-! ## The functions of `feedclean.go` -/

/-- Go `func Logout()`.  With a nil `resp`, `defer resp.Body.Close()`
dereferences nil. -/
def Logout (env : Env) : Prog Unit := do
  let token ← getToken
  if len token < 5 then
    return ()
  else
    logPrintf LogMsg.loggingOut
    let r ← httpGet env (Request.logout token)
    match r.err with
    | some e => logPrintf (LogMsg.logoutGetError e)
    | none => pure ()
    let resp ← deref r.resp
    if resp.StatusCode ≠ 200 then
      logPanicf (Panic.logoutHttpError resp.StatusCode)

/-- Go `func eCheck(msg string, err error)`. -/
def eCheck (env : Env) (msg : String) (err : Option String) : Prog Unit :=
  match err with
  | some e => do
    Logout env
    logPanicf (Panic.errorCaught msg e)
  | none => pure ()

/-- Go `func (f *Feed) Check() bool`. -/
def Feed.Check (env : Env) (f : Feed) : Prog Bool := do
  let r ← httpGet env (Request.get f.FeedURL)
  match r.err with
  | some e =>
    logPrintf (LogMsg.errorResolving f.FeedURL e)
    return false
  | none =>
    let resp ← deref r.resp
    if resp.StatusCode ≠ 200 then
      logPrintf (LogMsg.httpErrorResolving resp.StatusCode f.FeedURL)
      return false
    else
      return true

/-- Go `func (r *Response) Success() bool`. -/
def Response.Success (r : Response) : Bool := r.Result == "success"

/-- Go `func (r *Response) Check()`. -/
def Response.Check (r : Response) : Prog Unit :=
  if !r.Success then logPanicf (Panic.responseError r.Result r.Error) else pure ()

/-- Go `func Authorize() []Feed`. -/
def Authorize (env : Env) (email password clientKey : String) : Prog (List Feed) := do
  logPrintf LogMsg.authorizing
  let r ← httpGet env (Request.authorize email password clientKey)
  eCheck env "Error authorize http get" r.err
  let resp ← deref r.resp
  if resp.StatusCode ≠ 200 then
    logPanicf (Panic.httpError resp.StatusCode "users/authorize")
  let (respBody, err) := readAll resp.Body
  eCheck env "Error reading authorize response body" err
  let (authResp, err) := jsonUnmarshal respBody
  eCheck env "Error unmarshalling authorize json response" err
  authResp.Check
  logPrintf (LogMsg.authorizeSuccess authResp.Feeds.length)
  setToken authResp.Token
  return authResp.Feeds

/-- Go `func CheckFeed(feed *Feed) bool`. -/
def CheckFeed (env : Env) (since : Int) (feed : Feed) : Prog Bool := do
  let token ← getToken
  let r ← httpGet env (Request.listIds token feed.FeedId since)
  eCheck env "Error http list ids" r.err
  let resp ← deref r.resp
  if resp.StatusCode ≠ 200 then
    logPanicf (Panic.httpError resp.StatusCode "list ids")
  let (respBody, err) := readAll resp.Body
  eCheck env "Error reading list ids response body" err
  let (idResp, err) := jsonUnmarshal respBody
  eCheck env "Error unmarshalling list ids json response" err
  idResp.Check
  if idResp.Count = 0 then
    logPrintf (LogMsg.stale feed.Title)
    return false
  else
    return true

/-- Go `func DeleteFeed(feed *Feed)`. -/
def DeleteFeed (env : Env) (feed : Feed) : Prog Unit := do
  logPrintf (LogMsg.delete feed.Title)
  let token ← getToken
  let r ← httpGet env (Request.removeFeed token feed.FeedId)
  eCheck env "Error delete http" r.err
  let resp ← deref r.resp
  if resp.StatusCode ≠ 200 then
    logPanicf (Panic.httpError resp.StatusCode "delete")
  let (respBody, err) := readAll resp.Body
  eCheck env "Error reading delete response body" err
  let (delResp, err) := jsonUnmarshal respBody
  eCheck env "Error unmarshalling delete json response" err
  delResp.Check

/-- The command-line flags of `main` after `flag.Parse()`. -/
structure Flags where
  email : String
  password : String
  client : String
  deleteAge : Int
  commit : Bool
deriving DecidableEq, Repr

/-- The `since` cutoff of `main`:
`time.Now().Unix() - (24 * 60 * 60 * deleteAge)` in `int64` arithmetic. -/
def sinceCutoff (now deleteAge : Int) : Int :=
  wrap64 (now - wrap64 (24 * 60 * 60 * deleteAge))

/-- One iteration of the first loop of `main`: the body of
`for _, feed := range feeds`, from the deletion set so far to the new one. -/
def checkStep (env : Env) (since : Int) (feed : Feed) (del : List Feed) :
    Prog (List Feed) := do
  let keep ← CheckFeed env since feed
  if keep then
    let found ← feed.Check env
    if !found then
      return del ++ [feed]
    else
      return del
  else
    return del ++ [feed]

/-- The first loop of `main`, `for _, feed := range feeds`. -/
def checkLoop (env : Env) (since : Int) : List Feed → List Feed → Prog (List Feed)
  | [], del => pure del
  | feed :: rest, del => do
    let del ← checkStep env since feed del
    checkLoop env since rest del

/-- The second loop of `main`, `for _, feed := range del`. -/
def deleteLoop (env : Env) : List Feed → Prog Unit
  | [] => pure ()
  | feed :: rest => do
    DeleteFeed env feed
    deleteLoop env rest

/-- Go `func main()`, after `flag.Parse()`; `now` is `time.Now().Unix()`. -/
def main (env : Env) (now : Int) (flags : Flags) : Prog Unit := do
  let email := trimSpace flags.email
  if len email = 0 then
    flagUsage
    logPanicf Panic.emailRequired
  let password := trimSpace flags.password
  if len password = 0 then
    flagUsage
    logPanicf Panic.passwordRequired
  let clientKey := trimSpace flags.client
  if len clientKey = 0 then
    flagUsage
    logPanicf Panic.clientRequired
  let since := sinceCutoff now flags.deleteAge
  if !flags.commit then
    logPrintf LogMsg.dryRunStart
  let feeds ← Authorize env email password clientKey
  logPrintf LogMsg.checking
  let del ← checkLoop env since feeds []
  logPrintf (LogMsg.staleFound del.length)
  if flags.commit then
    logPrintf (LogMsg.deleting del.length)
    deleteLoop env del
  Logout env
  if !flags.commit then
    logPrintf LogMsg.dryRunEnd

/-- The world at process start: no token, nothing sent. -/
def World.init : World := ⟨"", []⟩

/-- A whole run of the program. -/
def run (env : Env) (now : Int) (flags : Flags) : Step Unit :=
  main env now flags World.init

/-! ## Observations on runs -/

/-- The requests among the events of a trace, in order. -/
def requestsOf (out : List Event) : List Request :=
  out.filterMap fun e =>
    match e with
    | Event.request r => some r
    | _ => none

/-- The counts reported by the `%d stale feeds found` log lines of a trace,
in order. -/
def staleCounts (out : List Event) : List Nat :=
  out.filterMap fun e =>
    match e with
    | Event.log (LogMsg.staleFound n) => some n
    | _ => none

/-- Whether an event is a remove-feed request. -/
def Event.isRemove : Event → Bool
  | Event.request (Request.removeFeed _ _) => true
  | _ => false

/-- Whether an event is the `%d stale feeds found` log line. -/
def Event.isStaleFound : Event → Bool
  | Event.log (LogMsg.staleFound _) => true
  | _ => false

/-- An event that is neither a remove-feed request nor the stale-count
report. -/
def Quiet (e : Event) : Prop := e.isRemove = false ∧ e.isStaleFound = false

/-- Every event the program can emit, from any world, satisfies `P`. -/
structure Emits {α : Type} (P : Event → Prop) (m : Prog α) : Prop where
  all : ∀ w, ∀ e ∈ (m w).out, P e

/-- The program appends to the request history exactly the requests it
emits. -/
structure Tracks {α : Type} (m : Prog α) : Prop where
  sent_eq : ∀ w, (m w).world.sent = w.sent ++ requestsOf (m w).out

/-- Whether a request is one of the four API calls (not a feed-URL probe). -/
def Request.isApi : Request → Bool
  | Request.get _ => false
  | _ => true

/-- Whether a request belongs to the evaluation phase: authorize, item count
or feed-URL probe (so neither remove-feed nor logout). -/
def Request.isEvaluation : Request → Bool
  | Request.authorize _ _ _ => true
  | Request.listIds _ _ _ => true
  | Request.get _ => true
  | _ => false

/-- An API call succeeds: status 200 and an envelope whose result is
`success`. -/
def Succeeds (env : Env) (hist : List Request) (r : Request) : Prop :=
  ∃ e, env hist r = GetResult.ok ⟨200, Body.envelope e⟩ ∧ e.Result = "success"

/-- Every API call of a request sequence succeeded, each answered by the
environment on the history before it. -/
def ApiOk (env : Env) (sent : List Request) : Prop :=
  ∀ hist r rest, sent = hist ++ r :: rest → r.isApi = true → Succeeds env hist r

/-- The three required arguments are non-empty after trimming, so `main`
gets past its argument checks. -/
def validArgs (flags : Flags) : Prop :=
  len (trimSpace flags.email) ≠ 0 ∧ len (trimSpace flags.password) ≠ 0 ∧
    len (trimSpace flags.client) ≠ 0

instance (flags : Flags) : Decidable (validArgs flags) := by
  unfold validArgs; infer_instance

/-- A reachability probe ends in a transport error or in a status other
than 200. -/
def probeFails (p : GetResult) : Prop :=
  (∃ err resp, p = GetResult.fail err resp) ∨
    (∃ resp, p = GetResult.ok resp ∧ resp.StatusCode ≠ 200)

instance (p : GetResult) : Decidable (probeFails p) := by
  unfold probeFails
  cases p with
  | ok resp =>
    by_cases h : resp.StatusCode = 200
    · exact isFalse (by simp [h])
    · exact isTrue (Or.inr ⟨resp, rfl, h⟩)
  | fail err resp => exact isTrue (Or.inl ⟨err, resp, rfl⟩)

/-- The log line `Feed.Check` prints for a probe outcome, if any. -/
def probeLog (url : String) (p : GetResult) : List Event :=
  match p with
  | GetResult.fail err _ => [Event.log (LogMsg.errorResolving url err)]
  | GetResult.ok resp =>
    if resp.StatusCode ≠ 200 then [Event.log (LogMsg.httpErrorResolving resp.StatusCode url)]
    else []

/-- The string values substituted into a panic message. -/
def Panic.strings : Panic → List String
  | Panic.errorCaught msg err => [msg, err]
  | Panic.httpError _ place => [place]
  | Panic.responseError result error => [result, error]
  | _ => []

/-- The string values substituted into a log line. -/
def LogMsg.strings : LogMsg → List String
  | LogMsg.stale title => [title]
  | LogMsg.delete title => [title]
  | LogMsg.logoutGetError err => [err]
  | LogMsg.errorResolving url err => [url, err]
  | LogMsg.httpErrorResolving _ url => [url]
  | LogMsg.panicf p => p.strings
  | _ => []

/-- Whether some log line of a trace carries `title` as one of its values. -/
def titleLogged (title : String) (out : List Event) : Bool :=
  out.any fun e =>
    match e with
    | Event.log m => m.strings.contains title
    | _ => false

/-! ## Concrete inputs -/

/-- A 200 answer with a bare success envelope. -/
def success : GetResult := GetResult.ok ⟨200, Body.envelope ⟨"", "", "success", [], 0⟩⟩

/-- A sample feed. -/
def exampleFeed : Feed :=
  ⟨"Example Feed", 7, "http://example.invalid/rss", "http://example.invalid"⟩

/-- A second sample feed. -/
def secondFeed : Feed :=
  ⟨"Second Feed", 8, "http://second.invalid/rss", "http://second.invalid"⟩

/-- A successful authorize answer carrying `token` and the sample feed. -/
def authorized (token : String) : GetResult :=
  GetResult.ok ⟨200, Body.envelope ⟨token, "", "success", [exampleFeed], 0⟩⟩

/-- A successful item-count answer with count `n`. -/
def counted (n : Int) : GetResult :=
  GetResult.ok ⟨200, Body.envelope ⟨"", "", "success", [], n⟩⟩

/-- An environment that answers by kind of request, whatever the history. -/
def scripted (auth items remove logout probe : GetResult) : Env := fun _ r =>
  match r with
  | Request.authorize _ _ _ => auth
  | Request.listIds _ _ _ => items
  | Request.removeFeed _ _ => remove
  | Request.logout _ => logout
  | Request.get _ => probe

/-- Two feeds are subscribed: feed 7 has no recent items, feed 8 has five and
its URL answers 200. -/
def scenarioA : Env := fun _ r =>
  match r with
  | Request.authorize _ _ _ =>
    GetResult.ok ⟨200, Body.envelope ⟨"abcde", "", "success", [exampleFeed, secondFeed], 0⟩⟩
  | Request.listIds _ feedId _ => if feedId = 7 then counted 0 else counted 5
  | _ => success

/-- Sample command-line flags. -/
def exampleFlags (commit : Bool) : Flags :=
  ⟨"me@example.invalid", "secret", "key", 300, commit⟩

/-- Every request is answered with a bare success envelope. -/
def allSuccess : Env := scripted success success success success success

/-- Authorize stores `token` and the sample feed, which has no recent items;
every API call succeeds. -/
def staleEnv (token : String) : Env :=
  scripted (authorized token) (counted 0) success success success

/-- Authorize stores the token `abcde`; the item-count call is answered with
status 500. -/
def itemCount500 : Env :=
  scripted (authorized "abcde") (GetResult.ok ⟨500, Body.malformed "Internal Server Error"⟩)
    success success success

/-- Authorize stores the token `abcde`; the item-count call is answered with
status 200 and an envelope whose result is `error`. -/
def itemCountRejected : Env :=
  scripted (authorized "abcde")
    (GetResult.ok ⟨200, Body.envelope ⟨"", "denied", "error", [], 0⟩⟩) success success success

/-- The logout request fails with a transport error: `http.Get` returns
`(nil, err)`. -/
def logoutTimeout : Env :=
  scripted success success success (GetResult.fail "timeout" none) success

/-- The authorize request is answered with status 200 and an envelope whose
result is `error`. -/
def authorizeRejected : Env :=
  scripted (GetResult.ok ⟨200, Body.envelope ⟨"", "bad credentials", "error", [], 0⟩⟩)
    success success success success

/-- The item-count query finds three recent items; the feed URL answers 404. -/
def unreachable404 : Env :=
  scripted success (counted 3) success success (GetResult.ok ⟨404, Body.malformed "Not Found"⟩)

/-! ## The program monad: lemmas -/

/-- Running a sequenced program. -/
@[simp] theorem bind_run {α β : Type} (m : Prog α) (f : α → Prog β) (w : World) :
    (m >>= f) w = Prog.bind m f w := rfl

/-- Running a program that only returns. -/
@[simp] theorem pure_run {α : Type} (a : α) (w : World) :
    (pure a : Prog α) w = ⟨[], w, Outcome.ret a⟩ := rfl

/-- The monad bind of `Prog` is `Prog.bind`. -/
theorem bind_def {α β : Type} (m : Prog α) (f : α → Prog β) :
    (m >>= f) = Prog.bind m f := rfl

/-- The monad pure of `Prog` is `Prog.pure`. -/
theorem pure_def {α : Type} (a : α) : (pure a : Prog α) = Prog.pure a := rfl

/-- Sequencing, by cases on how the first program ends. -/
theorem Prog.bind_eq {α β : Type} (m : Prog α) (f : α → Prog β) (w : World) :
    Prog.bind m f w =
      match (m w).res with
      | Outcome.ret a =>
        ⟨(m w).out ++ (f a (m w).world).out, (f a (m w).world).world, (f a (m w).world).res⟩
      | Outcome.panic p => ⟨(m w).out, (m w).world, Outcome.panic p⟩ := by
  unfold Prog.bind
  rcases m w with ⟨o, w1, a | p⟩ <;> rfl

/-- Left identity of sequencing. -/
theorem Prog.pure_bind {α β : Type} (a : α) (f : α → Prog β) :
    Prog.bind (Prog.pure a) f = f a := by
  funext w
  simp [Prog.bind, Prog.pure]

/-- Sequencing when the first program returns. -/
theorem bind_of_ret {α β : Type} {m : Prog α} {f : α → Prog β} {w : World} {a : α}
    (h : (m w).res = Outcome.ret a) :
    Prog.bind m f w =
      ⟨(m w).out ++ (f a (m w).world).out, (f a (m w).world).world, (f a (m w).world).res⟩ := by
  rw [Prog.bind_eq, h]

/-- A panic of the first program is the panic of the sequence. -/
theorem bind_panics {α β : Type} {m : Prog α} {f : α → Prog β} {w : World}
    (h : ∃ p, (m w).res = Outcome.panic p) : ∃ p, (Prog.bind m f w).res = Outcome.panic p := by
  obtain ⟨p, hp⟩ := h
  exact ⟨p, by rw [Prog.bind_eq, hp]⟩

/-- Reading the token passes the token of the world on. -/
theorem getToken_bind {α : Type} (f : String → Prog α) (w : World) :
    Prog.bind getToken f w = f w.token w := rfl

/-- Reading the token passes the token of the world on (monad form). -/
theorem getToken_bind_run {α : Type} (f : String → Prog α) (w : World) :
    (getToken >>= f) w = f w.token w := rfl

/-- A log line followed by a program. -/
theorem logPrintf_bind {α : Type} (m : LogMsg) (f : Unit → Prog α) (w : World) :
    Prog.bind (logPrintf m) f w =
      ⟨Event.log m :: (f () w).out, (f () w).world, (f () w).res⟩ := rfl

/-- Logging leaves the world unchanged. -/
theorem logPrintf_bind_world {α : Type} (m : LogMsg) (f : Unit → Prog α) (w : World) :
    ((logPrintf m >>= f) w).world = (f () w).world := rfl

/-- After a request the program continues with the answer of the environment. -/
theorem httpGet_bind_res {α : Type} (env : Env) (r : Request) (f : GetResult → Prog α)
    (w : World) :
    (Prog.bind (httpGet env r) f w).res = (f (env w.sent r) ⟨w.token, w.sent ++ [r]⟩).res := rfl

/-- Nothing runs after `log.Panicf`. -/
theorem logPanicf_bind_res {α β : Type} (p : Panic) (f : α → Prog β) (w : World) :
    (Prog.bind (logPanicf p) f w).res = Outcome.panic p := rfl

/-- With a nil error `eCheck` does nothing. -/
theorem eCheck_none (env : Env) (msg : String) : eCheck env msg none = Prog.pure () := rfl

/-- Dereferencing a non-nil pointer. -/
theorem deref_some {α : Type} (a : α) : deref (some a) = Prog.pure a := rfl

/-! ## Events a program may emit -/

theorem emits_bind {α β : Type} {P : Event → Prop} {m : Prog α} {f : α → Prog β}
    (hm : Emits P m) (hf : ∀ a, Emits P (f a)) : Emits P (m >>= f) := by
  refine ⟨fun w e he => ?_⟩
  have h1 := hm.all w
  simp only [bind_run, Prog.bind] at he
  rcases hmw : m w with ⟨o, w1, a | p⟩
  · rw [hmw] at he h1
    simp only [List.mem_append] at he
    rcases he with he | he
    · exact h1 e he
    · exact (hf a).all w1 e he
  · rw [hmw] at he h1
    exact h1 e he

theorem emits_pure {α : Type} {P : Event → Prop} (a : α) : Emits P (Pure.pure a : Prog α) := by
  refine ⟨fun w e he => ?_⟩; simp at he

theorem emits_getToken {P : Event → Prop} : Emits P getToken := by
  refine ⟨fun w e he => ?_⟩; simp [FeedClean.getToken] at he

theorem emits_setToken {P : Event → Prop} (t : String) : Emits P (setToken t) := by
  refine ⟨fun w e he => ?_⟩; simp [FeedClean.setToken] at he

theorem emits_deref {α : Type} {P : Event → Prop} (x : Option α) : Emits P (deref x) := by
  refine ⟨fun w e he => ?_⟩; cases x <;> simp [FeedClean.deref, Prog.pure] at he

theorem emits_logPrintf {P : Event → Prop} {m : LogMsg} (h : P (Event.log m)) :
    Emits P (logPrintf m) := by
  refine ⟨fun w e he => ?_⟩; simp [FeedClean.logPrintf] at he; subst he; exact h

theorem emits_logPanicf {α : Type} {P : Event → Prop} {p : Panic}
    (h : P (Event.log (LogMsg.panicf p))) : Emits P (logPanicf p : Prog α) := by
  refine ⟨fun w e he => ?_⟩; simp [FeedClean.logPanicf] at he; subst he; exact h

theorem emits_httpGet {P : Event → Prop} {env : Env} {r : Request}
    (h : P (Event.request r)) : Emits P (httpGet env r) := by
  refine ⟨fun w e he => ?_⟩; simp [FeedClean.httpGet] at he; subst he; exact h

/-- A weaker property of the emitted events. -/
theorem emits_mono {α : Type} {P Q : Event → Prop} {m : Prog α}
    (h : Emits P m) (hPQ : ∀ e, P e → Q e) : Emits Q m :=
  ⟨fun w e he => hPQ e (h.all w e he)⟩

theorem quiet_notRemove (e : Event) (h : Quiet e) : e.isRemove = false := h.1

theorem quiet_notStaleFound (e : Event) (h : Quiet e) : e.isStaleFound = false := h.2

/-- `Logout` emits no remove-feed request and no stale-count report. -/
theorem Logout_quiet (env : Env) : Emits Quiet (Logout env) := by
  unfold Logout
  repeat' first
    | exact emits_pure _
    | exact emits_getToken
    | exact emits_deref _
    | exact emits_logPrintf (by simp [Quiet, Event.isRemove, Event.isStaleFound])
    | exact emits_logPanicf (by simp [Quiet, Event.isRemove, Event.isStaleFound])
    | exact emits_httpGet (by simp [Quiet, Event.isRemove, Event.isStaleFound])
    | apply emits_bind
    | intro _
    | split

/-- `eCheck` emits no remove-feed request and no stale-count report. -/
theorem eCheck_quiet (env : Env) (msg : String) (err : Option String) :
    Emits Quiet (eCheck env msg err) := by
  unfold eCheck
  repeat' first
    | exact emits_pure _
    | exact Logout_quiet _
    | exact emits_logPanicf (by simp [Quiet, Event.isRemove, Event.isStaleFound])
    | apply emits_bind
    | intro _
    | split

/-- `CheckFeed` emits no remove-feed request and no stale-count report. -/
theorem CheckFeed_quiet (env : Env) (since : Int) (feed : Feed) :
    Emits Quiet (CheckFeed env since feed) := by
  unfold CheckFeed Response.Check
  repeat' first
    | exact emits_pure _
    | exact emits_getToken
    | exact emits_deref _
    | exact eCheck_quiet _ _ _
    | exact emits_logPrintf (by simp [Quiet, Event.isRemove, Event.isStaleFound])
    | exact emits_logPanicf (by simp [Quiet, Event.isRemove, Event.isStaleFound])
    | exact emits_httpGet (by simp [Quiet, Event.isRemove, Event.isStaleFound])
    | apply emits_bind
    | intro _
    | split

/-- `Feed.Check` emits no remove-feed request and no stale-count report. -/
theorem FeedCheck_quiet (env : Env) (feed : Feed) : Emits Quiet (feed.Check env) := by
  unfold Feed.Check
  repeat' first
    | exact emits_pure _
    | exact emits_deref _
    | exact emits_logPrintf (by simp [Quiet, Event.isRemove, Event.isStaleFound])
    | exact emits_httpGet (by simp [Quiet, Event.isRemove, Event.isStaleFound])
    | apply emits_bind
    | intro _
    | split

/-- One loop iteration emits no remove-feed request and no stale-count report. -/
theorem checkStep_quiet (env : Env) (since : Int) (feed : Feed) (del : List Feed) :
    Emits Quiet (checkStep env since feed del) := by
  unfold checkStep
  repeat' first
    | exact emits_pure _
    | exact CheckFeed_quiet _ _ _
    | exact FeedCheck_quiet _ _
    | apply emits_bind
    | intro _
    | split

/-- The evaluation loop emits no remove-feed request and no stale-count report. -/
theorem checkLoop_quiet (env : Env) (since : Int) (feeds : List Feed) :
    ∀ del, Emits Quiet (checkLoop env since feeds del) := by
  induction feeds with
  | nil => intro del; exact emits_pure _
  | cons feed rest ih =>
    intro del
    unfold checkLoop
    exact emits_bind (checkStep_quiet _ _ _ _) fun d => ih d

/-- `Authorize` emits no remove-feed request and no stale-count report. -/
theorem Authorize_quiet (env : Env) (email password clientKey : String) :
    Emits Quiet (Authorize env email password clientKey) := by
  unfold Authorize Response.Check
  repeat' first
    | exact emits_pure _
    | exact emits_setToken _
    | exact emits_deref _
    | exact eCheck_quiet _ _ _
    | exact emits_logPrintf (by simp [Quiet, Event.isRemove, Event.isStaleFound])
    | exact emits_logPanicf (by simp [Quiet, Event.isRemove, Event.isStaleFound])
    | exact emits_httpGet (by simp [Quiet, Event.isRemove, Event.isStaleFound])
    | apply emits_bind
    | intro _
    | split

/-- `DeleteFeed` emits no stale-count report. -/
theorem DeleteFeed_notStaleFound (env : Env) (feed : Feed) :
    Emits (fun e => e.isStaleFound = false) (DeleteFeed env feed) := by
  unfold DeleteFeed Response.Check
  repeat' first
    | exact emits_pure _
    | exact emits_getToken
    | exact emits_deref _
    | exact emits_mono (eCheck_quiet _ _ _) quiet_notStaleFound
    | exact emits_logPrintf (by simp [Event.isStaleFound])
    | exact emits_logPanicf (by simp [Event.isStaleFound])
    | exact emits_httpGet (by simp [Event.isStaleFound])
    | apply emits_bind
    | intro _
    | split

/-- The delete loop emits no stale-count report. -/
theorem deleteLoop_notStaleFound (env : Env) (del : List Feed) :
    Emits (fun e => e.isStaleFound = false) (deleteLoop env del) := by
  induction del with
  | nil => exact emits_pure _
  | cons feed rest ih =>
    unfold deleteLoop
    exact emits_bind (DeleteFeed_notStaleFound _ _) fun _ => ih

theorem staleCounts_append (a b : List Event) :
    staleCounts (a ++ b) = staleCounts a ++ staleCounts b := by
  simp [staleCounts]

/-- A program that emits no stale-count report reports no count. -/
theorem staleCounts_of_emits {α : Type} {m : Prog α}
    (h : Emits (fun e => e.isStaleFound = false) m) (w : World) :
    staleCounts (m w).out = [] := by
  have := h.all w
  unfold staleCounts
  rw [List.filterMap_eq_nil_iff]
  intro e he
  have h2 := this e he
  cases e with
  | request r => rfl
  | usage => rfl
  | log m => cases m <;> simp_all [Event.isStaleFound]

/-- The counts reported by a sequence. -/
theorem staleCounts_bind {α β : Type} (m : Prog α) (f : α → Prog β) (w : World) :
    staleCounts (Prog.bind m f w).out =
      staleCounts (m w).out ++
        match (m w).res with
        | Outcome.ret a => staleCounts (f a (m w).world).out
        | Outcome.panic _ => [] := by
  unfold Prog.bind
  rcases m w with ⟨o, w1, a | p⟩ <;> simp [staleCounts_append]

/-! ## The request history -/

theorem requestsOf_append (a b : List Event) :
    requestsOf (a ++ b) = requestsOf a ++ requestsOf b := by
  simp [requestsOf]

theorem requestsOf_log (m : LogMsg) (l : List Event) :
    requestsOf (Event.log m :: l) = requestsOf l := rfl

theorem tracks_bind {α β : Type} {m : Prog α} {f : α → Prog β}
    (hm : Tracks m) (hf : ∀ a, Tracks (f a)) : Tracks (m >>= f) := by
  refine ⟨fun w => ?_⟩
  have h1 := hm.sent_eq w
  simp only [bind_run, Prog.bind]
  rcases hmw : m w with ⟨o, w1, a | p⟩
  · rw [hmw] at h1
    have h2 := (hf a).sent_eq w1
    simp only [requestsOf_append] at *
    rw [h2, h1, List.append_assoc]
  · rw [hmw] at h1
    exact h1

theorem tracks_pure {α : Type} (a : α) : Tracks (Pure.pure a : Prog α) :=
  ⟨fun w => by simp [requestsOf]⟩

theorem tracks_getToken : Tracks getToken :=
  ⟨fun w => by simp [FeedClean.getToken, requestsOf]⟩

theorem tracks_setToken (t : String) : Tracks (setToken t) :=
  ⟨fun w => by simp [FeedClean.setToken, requestsOf]⟩

theorem tracks_deref {α : Type} (x : Option α) : Tracks (deref x) :=
  ⟨fun w => by cases x <;> simp [FeedClean.deref, Prog.pure, requestsOf]⟩

theorem tracks_logPrintf (m : LogMsg) : Tracks (logPrintf m) :=
  ⟨fun w => by simp [FeedClean.logPrintf, requestsOf]⟩

theorem tracks_logPanicf {α : Type} (p : Panic) : Tracks (logPanicf p : Prog α) :=
  ⟨fun w => by simp [FeedClean.logPanicf, requestsOf]⟩

theorem tracks_flagUsage : Tracks flagUsage :=
  ⟨fun w => by simp [FeedClean.flagUsage, requestsOf]⟩

theorem tracks_httpGet (env : Env) (r : Request) : Tracks (httpGet env r) :=
  ⟨fun w => by simp [FeedClean.httpGet, requestsOf]⟩

theorem Logout_tracks (env : Env) : Tracks (Logout env) := by
  unfold Logout
  repeat' first
    | exact tracks_pure _
    | exact tracks_getToken
    | exact tracks_deref _
    | exact tracks_logPrintf _
    | exact tracks_logPanicf _
    | exact tracks_httpGet _ _
    | apply tracks_bind
    | intro _
    | split

theorem eCheck_tracks (env : Env) (msg : String) (err : Option String) :
    Tracks (eCheck env msg err) := by
  unfold eCheck
  repeat' first
    | exact tracks_pure _
    | exact Logout_tracks _
    | exact tracks_logPanicf _
    | apply tracks_bind
    | intro _
    | split

theorem CheckFeed_tracks (env : Env) (since : Int) (feed : Feed) :
    Tracks (CheckFeed env since feed) := by
  unfold CheckFeed Response.Check
  repeat' first
    | exact tracks_pure _
    | exact tracks_getToken
    | exact tracks_deref _
    | exact eCheck_tracks _ _ _
    | exact tracks_logPrintf _
    | exact tracks_logPanicf _
    | exact tracks_httpGet _ _
    | apply tracks_bind
    | intro _
    | split

theorem FeedCheck_tracks (env : Env) (feed : Feed) : Tracks (feed.Check env) := by
  unfold Feed.Check
  repeat' first
    | exact tracks_pure _
    | exact tracks_deref _
    | exact tracks_logPrintf _
    | exact tracks_httpGet _ _
    | apply tracks_bind
    | intro _
    | split

theorem checkStep_tracks (env : Env) (since : Int) (feed : Feed) (del : List Feed) :
    Tracks (checkStep env since feed del) := by
  unfold checkStep
  repeat' first
    | exact tracks_pure _
    | exact CheckFeed_tracks _ _ _
    | exact FeedCheck_tracks _ _
    | apply tracks_bind
    | intro _
    | split

theorem checkLoop_tracks (env : Env) (since : Int) (feeds : List Feed) :
    ∀ del, Tracks (checkLoop env since feeds del) := by
  induction feeds with
  | nil => intro del; exact tracks_pure _
  | cons feed rest ih =>
    intro del
    unfold checkLoop
    exact tracks_bind (checkStep_tracks _ _ _ _) fun d => ih d

theorem Authorize_tracks (env : Env) (email password clientKey : String) :
    Tracks (Authorize env email password clientKey) := by
  unfold Authorize Response.Check
  repeat' first
    | exact tracks_pure _
    | exact tracks_setToken _
    | exact tracks_deref _
    | exact eCheck_tracks _ _ _
    | exact tracks_logPrintf _
    | exact tracks_logPanicf _
    | exact tracks_httpGet _ _
    | apply tracks_bind
    | intro _
    | split

theorem DeleteFeed_tracks (env : Env) (feed : Feed) : Tracks (DeleteFeed env feed) := by
  unfold DeleteFeed Response.Check
  repeat' first
    | exact tracks_pure _
    | exact tracks_getToken
    | exact tracks_deref _
    | exact eCheck_tracks _ _ _
    | exact tracks_logPrintf _
    | exact tracks_logPanicf _
    | exact tracks_httpGet _ _
    | apply tracks_bind
    | intro _
    | split

theorem deleteLoop_tracks (env : Env) (del : List Feed) : Tracks (deleteLoop env del) := by
  induction del with
  | nil => exact tracks_pure _
  | cons feed rest ih =>
    unfold deleteLoop
    exact tracks_bind (DeleteFeed_tracks _ _) fun _ => ih

/-- The request history of `main` is the sequence of requests in its trace. -/
theorem main_tracks (env : Env) (now : Int) (flags : Flags) : Tracks (main env now flags) := by
  unfold main
  repeat' first
    | exact tracks_pure _
    | exact Authorize_tracks _ _ _ _
    | exact checkLoop_tracks _ _ _ _
    | exact deleteLoop_tracks _ _
    | exact Logout_tracks _
    | exact tracks_logPrintf _
    | exact tracks_logPanicf _
    | exact tracks_flagUsage
    | apply tracks_bind
    | intro _
    | dsimp only
    | split

/-- A continuation only extends the request history. -/
theorem bind_sent {α β : Type} (m : Prog α) {f : α → Prog β} (hf : ∀ a, Tracks (f a))
    (w : World) : ∃ t, (Prog.bind m f w).world.sent = (m w).world.sent ++ t := by
  rw [Prog.bind_eq]
  cases h : (m w).res with
  | ret a => exact ⟨_, (hf a).sent_eq _⟩
  | panic p => exact ⟨[], by simp⟩

/-- A program that starts with a request extends the history by that request first. -/
theorem httpGet_bind_sent {α : Type} (env : Env) (r : Request) {f : GetResult → Prog α}
    (hf : ∀ a, Tracks (f a)) (w : World) :
    ∃ t, (Prog.bind (httpGet env r) f w).world.sent = w.sent ++ r :: t := by
  obtain ⟨t, ht⟩ := bind_sent (httpGet env r) hf w
  exact ⟨t, by rw [ht]; simp [httpGet]⟩

/-- `CheckFeed` always sends its item-count request first. -/
theorem CheckFeed_first (env : Env) (since : Int) (feed : Feed) (w : World) :
    ∃ t, (CheckFeed env since feed w).world.sent =
      w.sent ++ Request.listIds w.token feed.FeedId since :: t := by
  unfold CheckFeed Response.Check
  simp only [getToken_bind_run]
  apply httpGet_bind_sent
  intro r
  repeat' first
    | exact tracks_pure _
    | exact tracks_deref _
    | exact eCheck_tracks _ _ _
    | exact tracks_logPrintf _
    | exact tracks_logPanicf _
    | apply tracks_bind
    | intro _
    | split

/-- `DeleteFeed` always sends its remove-feed request first. -/
theorem DeleteFeed_first (env : Env) (feed : Feed) (w : World) :
    ∃ t, (DeleteFeed env feed w).world.sent =
      w.sent ++ Request.removeFeed w.token feed.FeedId :: t := by
  unfold DeleteFeed Response.Check
  simp only [logPrintf_bind_world, getToken_bind_run]
  apply httpGet_bind_sent
  intro r
  repeat' first
    | exact tracks_pure _
    | exact tracks_deref _
    | exact eCheck_tracks _ _ _
    | exact tracks_logPrintf _
    | exact tracks_logPanicf _
    | apply tracks_bind
    | intro _
    | split

/-- `Authorize` always sends its authorize request first. -/
theorem Authorize_first (env : Env) (email password clientKey : String) (w : World) :
    ∃ t, (Authorize env email password clientKey w).world.sent =
      w.sent ++ Request.authorize email password clientKey :: t := by
  unfold Authorize Response.Check
  simp only [logPrintf_bind_world]
  apply httpGet_bind_sent
  intro r
  repeat' first
    | exact tracks_pure _
    | exact tracks_setToken _
    | exact tracks_deref _
    | exact eCheck_tracks _ _ _
    | exact tracks_logPrintf _
    | exact tracks_logPanicf _
    | apply tracks_bind
    | intro _
    | split

/-- With a token of at least 5 bytes `Logout` sends its logout request first. -/
theorem Logout_first (env : Env) (w : World) (h : 5 ≤ len w.token) :
    ∃ t, (Logout env w).world.sent = w.sent ++ Request.logout w.token :: t := by
  unfold Logout
  simp only [getToken_bind_run, if_neg (Nat.not_lt.mpr h), logPrintf_bind_world]
  apply httpGet_bind_sent
  intro r
  repeat' first
    | exact tracks_pure _
    | exact tracks_deref _
    | exact tracks_logPrintf _
    | exact tracks_logPanicf _
    | apply tracks_bind
    | intro _
    | split

/-! ## Single calls -/

/-- With a token shorter than 5 bytes `Logout` does nothing. -/
theorem Logout_short (env : Env) (w : World) (h : len w.token < 5) :
    Logout env w = ⟨[], w, Outcome.ret ()⟩ := by
  simp [Logout, Prog.bind, getToken, Prog.pure, h]

/-- `Logout` when the logout request is answered with status 200. -/
theorem Logout_ok (env : Env) (w : World) (body : Body) (h : 5 ≤ len w.token)
    (hget : env w.sent (Request.logout w.token) = GetResult.ok ⟨200, body⟩) :
    Logout env w =
      ⟨[Event.log LogMsg.loggingOut, Event.request (Request.logout w.token)],
        ⟨w.token, w.sent ++ [Request.logout w.token]⟩, Outcome.ret ()⟩ := by
  simp [Logout, Prog.bind, getToken, httpGet, hget, GetResult.err, GetResult.resp,
    deref, Prog.pure, logPrintf, Nat.not_lt.mpr h]

/-- With a token of at least 5 bytes `Logout` sends exactly one logout request,
whatever the answer. -/
theorem Logout_requests (env : Env) (w : World) (h : 5 ≤ len w.token) :
    requestsOf (Logout env w).out = [Request.logout w.token] ∧
      (Logout env w).world.sent = w.sent ++ [Request.logout w.token] := by
  have hlt : ¬ len w.token < 5 := Nat.not_lt.mpr h
  rcases hg : env w.sent (Request.logout w.token) with
    ⟨code, body⟩ | ⟨err, _ | ⟨code, body⟩⟩
  · by_cases hc : code = 200 <;>
    simp [Logout, Prog.bind, getToken, httpGet, hg, GetResult.err, GetResult.resp, deref,
      Prog.pure, logPrintf, logPanicf, hlt, requestsOf, hc]
  · simp [Logout, Prog.bind, getToken, httpGet, hg, GetResult.err, GetResult.resp, deref,
      Prog.pure, logPrintf, logPanicf, hlt, requestsOf]
  · by_cases hc : code = 200 <;>
    simp [Logout, Prog.bind, getToken, httpGet, hg, GetResult.err, GetResult.resp, deref,
      Prog.pure, logPrintf, logPanicf, hlt, requestsOf, hc]

/-- `eCheck` with a non-nil error never returns. -/
theorem eCheck_some_panics (env : Env) (msg err : String) (w : World) :
    ∃ p, (eCheck env msg (some err) w).res = Outcome.panic p := by
  simp only [eCheck, bind_run, Prog.bind_eq]
  cases (Logout env w).res with
  | ret a => exact ⟨_, rfl⟩
  | panic p => exact ⟨p, rfl⟩

/-- `Authorize` on a success envelope. -/
theorem Authorize_ok (env : Env) (email password clientKey : String) (w : World) (r : Response)
    (hget : env w.sent (Request.authorize email password clientKey)
      = GetResult.ok ⟨200, Body.envelope r⟩)
    (hres : r.Result = "success") :
    Authorize env email password clientKey w =
      ⟨[Event.log LogMsg.authorizing,
          Event.request (Request.authorize email password clientKey),
          Event.log (LogMsg.authorizeSuccess r.Feeds.length)],
        ⟨r.Token, w.sent ++ [Request.authorize email password clientKey]⟩,
        Outcome.ret r.Feeds⟩ := by
  simp [Authorize, Prog.bind, httpGet, hget, eCheck, GetResult.err, GetResult.resp, deref,
    Prog.pure, readAll, jsonUnmarshal, Response.Check, Response.Success, hres, logPrintf,
    setToken]

/-- `Authorize` on a status 200 envelope whose result is not `success`. -/
theorem Authorize_rejected (env : Env) (email password clientKey : String) (w : World)
    (r : Response)
    (hget : env w.sent (Request.authorize email password clientKey)
      = GetResult.ok ⟨200, Body.envelope r⟩)
    (hres : r.Result ≠ "success") :
    Authorize env email password clientKey w =
      ⟨[Event.log LogMsg.authorizing,
          Event.request (Request.authorize email password clientKey),
          Event.log (LogMsg.panicf (Panic.responseError r.Result r.Error))],
        ⟨w.token, w.sent ++ [Request.authorize email password clientKey]⟩,
        Outcome.panic (Panic.responseError r.Result r.Error)⟩ := by
  simp [Authorize, Prog.bind, httpGet, hget, eCheck, GetResult.err, GetResult.resp, deref,
    Prog.pure, readAll, jsonUnmarshal, Response.Check, Response.Success, hres, logPrintf,
    logPanicf]

/-- `CheckFeed` on a success envelope. -/
theorem CheckFeed_ok (env : Env) (since : Int) (feed : Feed) (w : World) (r : Response)
    (hget : env w.sent (Request.listIds w.token feed.FeedId since)
      = GetResult.ok ⟨200, Body.envelope r⟩)
    (hres : r.Result = "success") :
    CheckFeed env since feed w =
      ⟨Event.request (Request.listIds w.token feed.FeedId since) ::
          (if r.Count = 0 then [Event.log (LogMsg.stale feed.Title)] else []),
        ⟨w.token, w.sent ++ [Request.listIds w.token feed.FeedId since]⟩,
        Outcome.ret (decide (r.Count ≠ 0))⟩ := by
  by_cases hc : r.Count = 0 <;>
  simp [CheckFeed, Prog.bind, getToken, httpGet, hget, eCheck, GetResult.err, GetResult.resp,
    deref, Prog.pure, readAll, jsonUnmarshal, Response.Check, Response.Success, hres, logPrintf,
    hc]

/-- `CheckFeed` returns only on a status 200 success envelope. -/
theorem CheckFeed_ret_inv (env : Env) (since : Int) (feed : Feed) (w : World) (b : Bool)
    (h : (CheckFeed env since feed w).res = Outcome.ret b) :
    ∃ r, env w.sent (Request.listIds w.token feed.FeedId since)
        = GetResult.ok ⟨200, Body.envelope r⟩ ∧ r.Result = "success" := by
  by_contra hne
  have key : ∃ p, (CheckFeed env since feed w).res = Outcome.panic p := by
    unfold CheckFeed
    simp only [bind_def, pure_def, getToken_bind, httpGet_bind_res]
    rcases hg : env w.sent (Request.listIds w.token feed.FeedId since) with
      ⟨code, body⟩ | ⟨err, resp⟩
    · simp only [GetResult.err, GetResult.resp, eCheck_none, deref_some, Prog.pure_bind,
        bind_def, pure_def]
      by_cases hc : code = 200
      · subst hc
        simp only [ne_eq, not_true_eq_false, if_false, Prog.pure_bind]
        cases body with
        | unreadable e =>
          simp only [readAll]
          exact bind_panics (eCheck_some_panics _ _ _ _)
        | malformed e =>
          simp only [readAll, jsonUnmarshal, eCheck_none, Prog.pure_bind]
          exact bind_panics (eCheck_some_panics _ _ _ _)
        | envelope r =>
          simp only [readAll, jsonUnmarshal, eCheck_none, Prog.pure_bind]
          have hr : r.Result ≠ "success" := fun hr => hne ⟨r, hg, hr⟩
          have hs : r.Success = false := by simp [Response.Success, hr]
          simp only [Response.Check, hs, Bool.not_false, if_true]
          exact ⟨_, logPanicf_bind_res _ _ _⟩
      · simp only [ne_eq, hc, not_false_eq_true, if_true]
        exact ⟨_, logPanicf_bind_res _ _ _⟩
    · simp only [GetResult.err]
      exact bind_panics (eCheck_some_panics _ _ _ _)
  obtain ⟨p, hp⟩ := key
  rw [hp] at h
  cases h

/-- `DeleteFeed` on a success envelope. -/
theorem DeleteFeed_ok (env : Env) (feed : Feed) (w : World) (r : Response)
    (hget : env w.sent (Request.removeFeed w.token feed.FeedId)
      = GetResult.ok ⟨200, Body.envelope r⟩)
    (hres : r.Result = "success") :
    DeleteFeed env feed w =
      ⟨[Event.log (LogMsg.delete feed.Title),
          Event.request (Request.removeFeed w.token feed.FeedId)],
        ⟨w.token, w.sent ++ [Request.removeFeed w.token feed.FeedId]⟩,
        Outcome.ret ()⟩ := by
  simp [DeleteFeed, Prog.bind, getToken, httpGet, hget, eCheck, GetResult.err, GetResult.resp,
    deref, Prog.pure, readAll, jsonUnmarshal, Response.Check, Response.Success, hres, logPrintf]

/-- `Feed.Check` never panics: one GET, at most one log line, and the verdict. -/
theorem FeedCheck_eq (env : Env) (feed : Feed) (w : World) :
    feed.Check env w =
      ⟨Event.request (Request.get feed.FeedURL) ::
          probeLog feed.FeedURL (env w.sent (Request.get feed.FeedURL)),
        ⟨w.token, w.sent ++ [Request.get feed.FeedURL]⟩,
        Outcome.ret (decide ¬ probeFails (env w.sent (Request.get feed.FeedURL)))⟩ := by
  cases h : env w.sent (Request.get feed.FeedURL) with
  | ok resp =>
    by_cases hs : resp.StatusCode = 200 <;>
    simp [Feed.Check, Prog.bind, httpGet, h, GetResult.err, GetResult.resp, deref, Prog.pure,
      logPrintf, probeLog, probeFails, hs]
  | fail err resp =>
    simp [Feed.Check, Prog.bind, httpGet, h, GetResult.err, GetResult.resp, deref, Prog.pure,
      logPrintf, probeLog, probeFails]

/-- One loop iteration on a successful item-count query. -/
theorem checkStep_ok (env : Env) (since : Int) (feed : Feed) (del : List Feed) (w : World)
    (r : Response)
    (hget : env w.sent (Request.listIds w.token feed.FeedId since)
      = GetResult.ok ⟨200, Body.envelope r⟩)
    (hres : r.Result = "success") :
    checkStep env since feed del w =
      if r.Count = 0 then
        ⟨[Event.request (Request.listIds w.token feed.FeedId since),
            Event.log (LogMsg.stale feed.Title)],
          ⟨w.token, w.sent ++ [Request.listIds w.token feed.FeedId since]⟩,
          Outcome.ret (del ++ [feed])⟩
      else
        ⟨Event.request (Request.listIds w.token feed.FeedId since) ::
            Event.request (Request.get feed.FeedURL) ::
            probeLog feed.FeedURL
              (env (w.sent ++ [Request.listIds w.token feed.FeedId since])
                (Request.get feed.FeedURL)),
          ⟨w.token, w.sent ++ [Request.listIds w.token feed.FeedId since] ++
            [Request.get feed.FeedURL]⟩,
          Outcome.ret
            (if probeFails (env (w.sent ++ [Request.listIds w.token feed.FeedId since])
                (Request.get feed.FeedURL))
              then del ++ [feed] else del)⟩ := by
  unfold checkStep
  simp only [bind_run, Prog.bind_eq, CheckFeed_ok env since feed w r hget hres, FeedCheck_eq]
  by_cases hc : r.Count = 0
  · simp [hc]
  · by_cases hp : probeFails (env (w.sent ++ [Request.listIds w.token feed.FeedId since])
        (Request.get feed.FeedURL)) <;> simp [hc, hp, bind_def, Prog.bind_eq, FeedCheck_eq]

/-- A loop iteration returns only on a successful item-count query. -/
theorem checkStep_ret_inv (env : Env) (since : Int) (feed : Feed) (del d : List Feed)
    (w : World) (h : (checkStep env since feed del w).res = Outcome.ret d) :
    ∃ r, env w.sent (Request.listIds w.token feed.FeedId since)
        = GetResult.ok ⟨200, Body.envelope r⟩ ∧ r.Result = "success" := by
  unfold checkStep at h
  simp only [bind_def, Prog.bind_eq] at h
  cases hc : (CheckFeed env since feed w).res with
  | ret b => exact CheckFeed_ret_inv env since feed w b hc
  | panic p =>
    rw [hc] at h
    cases h

/-- A loop iteration keeps the deletion set or appends the feed to it. -/
theorem checkStep_ret_cases (env : Env) (since : Int) (feed : Feed) (del d : List Feed)
    (w : World) (h : (checkStep env since feed del w).res = Outcome.ret d) :
    d = del ∨ d = del ++ [feed] := by
  obtain ⟨r, hget, hres⟩ := checkStep_ret_inv env since feed del d w h
  rw [checkStep_ok env since feed del w r hget hres] at h
  split at h
  · right
    simpa using h.symm
  · simp only [Outcome.ret.injEq] at h
    split at h
    · exact Or.inr h.symm
    · exact Or.inl h.symm

/-! ## The shape of main -/

/-- The control flow of `main`: three argument checks, then the commit run or the dry run. -/
theorem main_eq (env : Env) (now : Int) (flags : Flags) (w : World) :
    main env now flags w =
      if len (trimSpace flags.email) = 0 then
        ⟨[Event.usage, Event.log (LogMsg.panicf Panic.emailRequired)], w,
          Outcome.panic Panic.emailRequired⟩
      else if len (trimSpace flags.password) = 0 then
        ⟨[Event.usage, Event.log (LogMsg.panicf Panic.passwordRequired)], w,
          Outcome.panic Panic.passwordRequired⟩
      else if len (trimSpace flags.client) = 0 then
        ⟨[Event.usage, Event.log (LogMsg.panicf Panic.clientRequired)], w,
          Outcome.panic Panic.clientRequired⟩
      else if flags.commit then
        Prog.bind (Authorize env (trimSpace flags.email) (trimSpace flags.password)
          (trimSpace flags.client)) (fun feeds =>
        Prog.bind (logPrintf LogMsg.checking) (fun _ =>
        Prog.bind (checkLoop env (sinceCutoff now flags.deleteAge) feeds []) (fun del =>
        Prog.bind (logPrintf (LogMsg.staleFound del.length)) (fun _ =>
        Prog.bind (logPrintf (LogMsg.deleting del.length)) (fun _ =>
        Prog.bind (deleteLoop env del) (fun _ =>
        Prog.bind (Logout env) (fun _ => Prog.pure ()))))))) w
      else
        Prog.bind (logPrintf LogMsg.dryRunStart) (fun _ =>
        Prog.bind (Authorize env (trimSpace flags.email) (trimSpace flags.password)
          (trimSpace flags.client)) (fun feeds =>
        Prog.bind (logPrintf LogMsg.checking) (fun _ =>
        Prog.bind (checkLoop env (sinceCutoff now flags.deleteAge) feeds []) (fun del =>
        Prog.bind (logPrintf (LogMsg.staleFound del.length)) (fun _ =>
        Prog.bind (Logout env) (fun _ => logPrintf LogMsg.dryRunEnd)))))) w := by
  unfold main
  simp only [bind_def, pure_def]
  by_cases h1 : len (trimSpace flags.email) = 0
  · simp only [h1, if_true]; rfl
  by_cases h2 : len (trimSpace flags.password) = 0
  · simp only [h1, h2, if_true, if_false, Prog.pure_bind]; rfl
  by_cases h3 : len (trimSpace flags.client) = 0
  · simp only [h1, h2, h3, if_true, if_false, Prog.pure_bind]; rfl
  simp only [h1, h2, h3, if_false, Prog.pure_bind]
  cases flags.commit <;>
    simp only [Bool.not_false, Bool.not_true, Bool.false_eq_true, if_true, if_false,
      Prog.pure_bind]

/-- The commit run with valid arguments. -/
theorem main_commit_eq (env : Env) (now : Int) (e p c : String) (age : Int) (w : World)
    (hvalid : validArgs ⟨e, p, c, age, true⟩) :
    main env now ⟨e, p, c, age, true⟩ w =
      Prog.bind (Authorize env (trimSpace e) (trimSpace p) (trimSpace c)) (fun feeds =>
      Prog.bind (logPrintf LogMsg.checking) (fun _ =>
      Prog.bind (checkLoop env (sinceCutoff now age) feeds []) (fun del =>
      Prog.bind (logPrintf (LogMsg.staleFound del.length)) (fun _ =>
      Prog.bind (logPrintf (LogMsg.deleting del.length)) (fun _ =>
      Prog.bind (deleteLoop env del) (fun _ =>
      Prog.bind (Logout env) (fun _ => Prog.pure ()))))))) w := by
  obtain ⟨h1, h2, h3⟩ := hvalid
  rw [main_eq]
  simp only [ne_eq] at h1 h2 h3
  simp only [h1, h2, h3, if_false, if_true]

/-- A dry run emits no remove-feed request. -/
theorem main_dry_noRemove (env : Env) (now : Int) (e p c : String) (age : Int) :
    Emits (fun e => e.isRemove = false) (main env now ⟨e, p, c, age, false⟩) := by
  unfold main
  simp only [Bool.not_false, Bool.false_eq_true, if_true, if_false]
  repeat' first
    | exact emits_pure _
    | exact emits_mono (Authorize_quiet _ _ _ _) quiet_notRemove
    | exact emits_mono (checkLoop_quiet _ _ _ _) quiet_notRemove
    | exact emits_mono (Logout_quiet _) quiet_notRemove
    | exact emits_logPrintf (by simp [Event.isRemove])
    | exact emits_logPanicf (by simp [Event.isRemove])
    | exact ⟨fun w e he => by simp [flagUsage] at he; subst he; rfl⟩
    | apply emits_bind
    | intro _
    | dsimp only
    | split

/-- The dry run reports the counts the commit run reports. -/
theorem main_staleCounts (env : Env) (now : Int) (e p c : String) (age : Int) (w : World) :
    staleCounts (main env now ⟨e, p, c, age, false⟩ w).out =
      staleCounts (main env now ⟨e, p, c, age, true⟩ w).out := by
  have hA := fun x y z w => staleCounts_of_emits
    (emits_mono (Authorize_quiet env x y z) quiet_notStaleFound) w
  have hL := fun s f d w => staleCounts_of_emits
    (emits_mono (checkLoop_quiet env s f d) quiet_notStaleFound) w
  have hO := fun w => staleCounts_of_emits
    (emits_mono (Logout_quiet env) quiet_notStaleFound) w
  have hD := fun d w => staleCounts_of_emits (deleteLoop_notStaleFound env d) w
  rw [main_eq, main_eq]
  dsimp only
  by_cases h1 : len (trimSpace e) = 0
  · simp only [h1, if_true]
  by_cases h2 : len (trimSpace p) = 0
  · simp only [h1, h2, if_true, if_false]
  by_cases h3 : len (trimSpace c) = 0
  · simp only [h1, h2, h3, if_true, if_false]
  simp only [h1, h2, h3, if_false, if_true, Bool.false_eq_true]
  simp only [staleCounts_bind, hA, hL, hO, hD]
  simp only [logPrintf, staleCounts, Prog.pure, List.filterMap_cons, List.filterMap_nil,
    List.nil_append, List.append_nil, List.singleton_append]
  repeat' split
  all_goals rfl

/-! ## Runs in which every API call succeeds -/

/-- Success of every API call passes to an initial segment. -/
theorem ApiOk.of_append {env : Env} {a b : List Request} (h : ApiOk env (a ++ b)) :
    ApiOk env a := by
  intro hist r rest heq hapi
  exact h hist r (rest ++ b) (by rw [heq]; simp) hapi

/-- If every API call of a sequence succeeds, so does every API call of its
first program. -/
theorem bind_apiOk_left {α β : Type} {env : Env} {m : Prog α} {f : α → Prog β} {w : World}
    (h : ApiOk env (w.sent ++ requestsOf (Prog.bind m f w).out)) :
    ApiOk env (w.sent ++ requestsOf (m w).out) := by
  rw [Prog.bind_eq] at h
  cases hr : (m w).res with
  | ret a =>
    rw [hr] at h
    simp only [requestsOf_append, ← List.append_assoc] at h
    exact h.of_append
  | panic p =>
    rw [hr] at h
    exact h

/-- If every API call of a sequence succeeds, so does every API call of its
continuation. -/
theorem bind_apiOk_right {α β : Type} {env : Env} {m : Prog α} {f : α → Prog β} {w : World}
    {a : α} (hm : Tracks m) (hr : (m w).res = Outcome.ret a)
    (h : ApiOk env (w.sent ++ requestsOf (Prog.bind m f w).out)) :
    ApiOk env ((m w).world.sent ++ requestsOf (f a (m w).world).out) := by
  rw [bind_of_ret hr] at h
  simp only [requestsOf_append, ← List.append_assoc] at h
  rw [hm.sent_eq w]
  exact h

theorem Authorize_of_apiOk (env : Env) (email password clientKey : String) (w : World)
    (hok : ApiOk env (w.sent ++ requestsOf (Authorize env email password clientKey w).out)) :
    ∃ r : Response, Authorize env email password clientKey w =
      ⟨[Event.log LogMsg.authorizing,
          Event.request (Request.authorize email password clientKey),
          Event.log (LogMsg.authorizeSuccess r.Feeds.length)],
        ⟨r.Token, w.sent ++ [Request.authorize email password clientKey]⟩,
        Outcome.ret r.Feeds⟩ := by
  rw [← (Authorize_tracks env email password clientKey).sent_eq w] at hok
  obtain ⟨t, ht⟩ := Authorize_first env email password clientKey w
  obtain ⟨r, hget, hres⟩ := hok _ _ t ht rfl
  exact ⟨r, Authorize_ok env email password clientKey w r hget hres⟩

theorem CheckFeed_of_apiOk (env : Env) (since : Int) (feed : Feed) (w : World)
    (hok : ApiOk env (w.sent ++ requestsOf (CheckFeed env since feed w).out)) :
    ∃ r, env w.sent (Request.listIds w.token feed.FeedId since)
        = GetResult.ok ⟨200, Body.envelope r⟩ ∧ r.Result = "success" := by
  rw [← (CheckFeed_tracks env since feed).sent_eq w] at hok
  obtain ⟨t, ht⟩ := CheckFeed_first env since feed w
  exact hok _ _ t ht rfl

theorem checkStep_of_apiOk (env : Env) (since : Int) (feed : Feed) (del : List Feed) (w : World)
    (hok : ApiOk env (w.sent ++ requestsOf (checkStep env since feed del w).out)) :
    ∃ del1, (checkStep env since feed del w).res = Outcome.ret del1 ∧
      (checkStep env since feed del w).world.token = w.token ∧
      ∀ r ∈ requestsOf (checkStep env since feed del w).out, r.isEvaluation = true := by
  have h1 : ApiOk env (w.sent ++ requestsOf (CheckFeed env since feed w).out) := by
    unfold checkStep at hok
    exact bind_apiOk_left hok
  obtain ⟨r, hget, hres⟩ := CheckFeed_of_apiOk env since feed w h1
  rw [checkStep_ok env since feed del w r hget hres]
  split
  · exact ⟨_, rfl, rfl, by simp [requestsOf, Request.isEvaluation]⟩
  · refine ⟨_, rfl, rfl, ?_⟩
    intro q hq
    have : requestsOf (probeLog feed.FeedURL
        (env (w.sent ++ [Request.listIds w.token feed.FeedId since])
          (Request.get feed.FeedURL))) = [] := by
      unfold probeLog
      split
      · rfl
      · split <;> rfl
    simp only [requestsOf, List.filterMap_cons] at hq this
    rw [this] at hq
    simp at hq
    rcases hq with rfl | rfl <;> rfl

theorem checkLoop_of_apiOk (env : Env) (since : Int) (feeds : List Feed) :
    ∀ (del : List Feed) (w : World),
      ApiOk env (w.sent ++ requestsOf (checkLoop env since feeds del w).out) →
      ∃ del1, (checkLoop env since feeds del w).res = Outcome.ret del1 ∧
        (checkLoop env since feeds del w).world.token = w.token ∧
        ∀ r ∈ requestsOf (checkLoop env since feeds del w).out, r.isEvaluation = true := by
  induction feeds with
  | nil =>
    intro del w _
    exact ⟨del, rfl, rfl, by simp [checkLoop, requestsOf]⟩
  | cons feed rest ih =>
    intro del w hok
    unfold checkLoop at hok ⊢
    simp only [bind_def] at hok ⊢
    obtain ⟨d, hd, htok, hreq⟩ := checkStep_of_apiOk env since feed del w (bind_apiOk_left hok)
    have hok2 := bind_apiOk_right (checkStep_tracks env since feed del) hd hok
    obtain ⟨d2, hd2, htok2, hreq2⟩ := ih d _ hok2
    rw [bind_of_ret hd]
    refine ⟨d2, hd2, by rw [htok2, htok], ?_⟩
    intro r hr
    simp only [requestsOf_append, List.mem_append] at hr
    rcases hr with hr | hr
    · exact hreq r hr
    · exact hreq2 r hr

theorem DeleteFeed_of_apiOk (env : Env) (feed : Feed) (w : World)
    (hok : ApiOk env (w.sent ++ requestsOf (DeleteFeed env feed w).out)) :
    DeleteFeed env feed w =
      ⟨[Event.log (LogMsg.delete feed.Title),
          Event.request (Request.removeFeed w.token feed.FeedId)],
        ⟨w.token, w.sent ++ [Request.removeFeed w.token feed.FeedId]⟩,
        Outcome.ret ()⟩ := by
  rw [← (DeleteFeed_tracks env feed).sent_eq w] at hok
  obtain ⟨t, ht⟩ := DeleteFeed_first env feed w
  obtain ⟨r, hget, hres⟩ := hok _ _ t ht rfl
  exact DeleteFeed_ok env feed w r hget hres

theorem deleteLoop_of_apiOk (env : Env) (del : List Feed) :
    ∀ w : World, ApiOk env (w.sent ++ requestsOf (deleteLoop env del w).out) →
      (deleteLoop env del w).res = Outcome.ret () ∧
      (deleteLoop env del w).world.token = w.token ∧
      requestsOf (deleteLoop env del w).out =
        del.map (fun f => Request.removeFeed w.token f.FeedId) := by
  induction del with
  | nil =>
    intro w _
    exact ⟨rfl, rfl, rfl⟩
  | cons feed rest ih =>
    intro w hok
    unfold deleteLoop at hok ⊢
    simp only [bind_def] at hok ⊢
    have hD := DeleteFeed_of_apiOk env feed w (bind_apiOk_left hok)
    have hd : (DeleteFeed env feed w).res = Outcome.ret () := by rw [hD]
    have hok2 := bind_apiOk_right (DeleteFeed_tracks env feed) hd hok
    obtain ⟨h1, h2, h3⟩ := ih _ hok2
    rw [bind_of_ret hd]
    refine ⟨h1, ?_, ?_⟩
    · rw [h2, hD]
    · simp only [requestsOf_append, h3]
      rw [hD]
      simp [requestsOf]

theorem Logout_of_apiOk (env : Env) (w : World)
    (hok : ApiOk env (w.sent ++ requestsOf (Logout env w).out)) :
    (Logout env w).res = Outcome.ret () ∧
      (Logout env w).world.token = w.token ∧
      requestsOf (Logout env w).out =
        if 5 ≤ len w.token then [Request.logout w.token] else [] := by
  by_cases h : 5 ≤ len w.token
  · rw [← (Logout_tracks env).sent_eq w] at hok
    obtain ⟨t, ht⟩ := Logout_first env w h
    obtain ⟨r, hget, _⟩ := hok _ _ t ht rfl
    rw [Logout_ok env w _ h hget]
    simp [requestsOf, h]
  · rw [Logout_short env w (Nat.lt_of_not_le h)]
    simp [requestsOf, h]

/-- The commit run, from any world, when every API call succeeds. -/
theorem main_commit_of_apiOk (env : Env) (now : Int) (e p c : String) (age : Int) (w : World)
    (hvalid : validArgs ⟨e, p, c, age, true⟩)
    (hok : ApiOk env (w.sent ++ requestsOf (main env now ⟨e, p, c, age, true⟩ w).out)) :
    ∃ feeds del pre,
      (Authorize env (trimSpace e) (trimSpace p) (trimSpace c) w).res = Outcome.ret feeds ∧
      (checkLoop env (sinceCutoff now age) feeds []
        (Authorize env (trimSpace e) (trimSpace p) (trimSpace c) w).world).res
          = Outcome.ret del ∧
      (main env now ⟨e, p, c, age, true⟩ w).res = Outcome.ret () ∧
      requestsOf (main env now ⟨e, p, c, age, true⟩ w).out =
        pre ++
        del.map (fun f =>
          Request.removeFeed (main env now ⟨e, p, c, age, true⟩ w).world.token f.FeedId) ++
        (if 5 ≤ len (main env now ⟨e, p, c, age, true⟩ w).world.token then
          [Request.logout (main env now ⟨e, p, c, age, true⟩ w).world.token] else []) ∧
      ∀ r ∈ pre, r.isEvaluation = true := by
  rw [main_commit_eq env now e p c age w hvalid] at hok ⊢
  obtain ⟨r, hA⟩ := Authorize_of_apiOk env _ _ _ w (bind_apiOk_left hok)
  have hAres : (Authorize env (trimSpace e) (trimSpace p) (trimSpace c) w).res
      = Outcome.ret r.Feeds := by rw [hA]
  have hok1 := bind_apiOk_right (Authorize_tracks env _ _ _) hAres hok
  rw [bind_of_ret hAres]
  simp only [logPrintf_bind, requestsOf_log] at hok1 ⊢
  obtain ⟨del, hL, hLtok, hLreq⟩ := checkLoop_of_apiOk env _ _ _ _ (bind_apiOk_left hok1)
  have hok2 := bind_apiOk_right (checkLoop_tracks env _ _ _) hL hok1
  rw [bind_of_ret hL]
  simp only [logPrintf_bind, requestsOf_log] at hok2 ⊢
  obtain ⟨hD, hDtok, hDreq⟩ := deleteLoop_of_apiOk env del _ (bind_apiOk_left hok2)
  have hok3 := bind_apiOk_right (deleteLoop_tracks env del) hD hok2
  rw [bind_of_ret hD]
  obtain ⟨hO, hOtok, hOreq⟩ := Logout_of_apiOk env _ (bind_apiOk_left hok3)
  rw [bind_of_ret hO]
  refine ⟨r.Feeds, del, requestsOf (Authorize env (trimSpace e) (trimSpace p) (trimSpace c) w).out
    ++ requestsOf (checkLoop env (sinceCutoff now age) r.Feeds []
      (Authorize env (trimSpace e) (trimSpace p) (trimSpace c) w).world).out,
    hAres, hL, rfl, ?_, ?_⟩
  · simp only [Prog.pure, List.append_nil, requestsOf_append, requestsOf_log, hOtok, hDtok,
      hLtok, hDreq, hOreq, List.append_assoc]
  · intro q hq
    simp only [List.mem_append] at hq
    rcases hq with hq | hq
    · rw [hA] at hq
      simp [requestsOf] at hq
      subst hq
      rfl
    · exact hLreq q hq

/-- In a scripted environment with success answers every API call succeeds. -/
theorem scripted_apiOk (token : String) (n : Int) (probe : GetResult) (sent : List Request) :
    ApiOk (scripted (authorized token) (counted n) success success probe) sent := by
  intro hist r rest _ hapi
  cases r with
  | authorize a b c => exact ⟨_, rfl, rfl⟩
  | listIds a b c => exact ⟨_, rfl, rfl⟩
  | removeFeed a b => exact ⟨_, rfl, rfl⟩
  | logout a => exact ⟨_, rfl, rfl⟩
  | get u => cases hapi

/-! ## The claims -/

/-- C1, evaluated at two failing inputs.  Authorize stores the 5-byte token
`abcde`; then the item-count call is answered with status 500 (first run) or
with a status 200 envelope whose result is `error` (second run).  Both runs
panic straight from `log.Panicf`: the only requests are the authorize and the
item-count request, and no logout request is issued. -/
theorem C1_status_or_envelope_failure_skips_logout :
    run itemCount500 1700000000 (exampleFlags false) =
      ⟨[Event.log LogMsg.dryRunStart, Event.log LogMsg.authorizing,
          Event.request (Request.authorize "me@example.invalid" "secret" "key"),
          Event.log (LogMsg.authorizeSuccess 1), Event.log LogMsg.checking,
          Event.request (Request.listIds "abcde" 7 1674080000),
          Event.log (LogMsg.panicf (Panic.httpError 500 "list ids"))],
        ⟨"abcde", [Request.authorize "me@example.invalid" "secret" "key",
          Request.listIds "abcde" 7 1674080000]⟩,
        Outcome.panic (Panic.httpError 500 "list ids")⟩ ∧
    run itemCountRejected 1700000000 (exampleFlags false) =
      ⟨[Event.log LogMsg.dryRunStart, Event.log LogMsg.authorizing,
          Event.request (Request.authorize "me@example.invalid" "secret" "key"),
          Event.log (LogMsg.authorizeSuccess 1), Event.log LogMsg.checking,
          Event.request (Request.listIds "abcde" 7 1674080000),
          Event.log (LogMsg.panicf (Panic.responseError "error" "denied"))],
        ⟨"abcde", [Request.authorize "me@example.invalid" "secret" "key",
          Request.listIds "abcde" 7 1674080000]⟩,
        Outcome.panic (Panic.responseError "error" "denied")⟩ := by
  constructor <;> rfl

/-- C2: for every environment, start time and arguments, the dry run
(commit=false) issues no remove-feed request, and the stale-feed counts it
reports are the ones the commit run (commit=true) reports on the same inputs. -/
theorem C2_dry_run_no_remove_same_count (env : Env) (now : Int)
    (email password client : String) (deleteAge : Int) :
    (∀ token feedId, Event.request (Request.removeFeed token feedId) ∉
      (run env now ⟨email, password, client, deleteAge, false⟩).out) ∧
    staleCounts (run env now ⟨email, password, client, deleteAge, false⟩).out =
      staleCounts (run env now ⟨email, password, client, deleteAge, true⟩).out := by
  refine ⟨fun token feedId hmem => ?_,
    main_staleCounts env now email password client deleteAge _⟩
  have := (main_dry_noRemove env now email password client deleteAge).all World.init _ hmem
  simp [Event.isRemove] at this

/-- C3: if the item-count query of a feed is answered with status 200 and a
success envelope with count 0, the loop iteration for that feed sends that one
request, logs `STALE title` and returns the deletion set with the feed
appended; no GET of a feed URL is issued. -/
theorem C3_zero_count_staged_without_probe (env : Env) (since : Int) (feed : Feed)
    (del : List Feed) (w : World) (r : Response)
    (hget : env w.sent (Request.listIds w.token feed.FeedId since)
      = GetResult.ok ⟨200, Body.envelope r⟩)
    (hres : r.Result = "success") (hcount : r.Count = 0) :
    checkStep env since feed del w =
      ⟨[Event.request (Request.listIds w.token feed.FeedId since),
          Event.log (LogMsg.stale feed.Title)],
        ⟨w.token, w.sent ++ [Request.listIds w.token feed.FeedId since]⟩,
        Outcome.ret (del ++ [feed])⟩ ∧
    ∀ url, Event.request (Request.get url) ∉ (checkStep env since feed del w).out := by
  have h := checkStep_ok env since feed del w r hget hres
  rw [if_pos hcount] at h
  refine ⟨h, fun url => ?_⟩
  rw [h]
  simp

/-- C3 at the sample feed, answered with count 0. -/
theorem C3_zero_count_staged_without_probe_witness :
    checkStep (staleEnv "abcde") 1674080000 exampleFeed [] ⟨"abcde", []⟩ =
      ⟨[Event.request (Request.listIds "abcde" 7 1674080000),
          Event.log (LogMsg.stale "Example Feed")],
        ⟨"abcde", [Request.listIds "abcde" 7 1674080000]⟩,
        Outcome.ret [exampleFeed]⟩ :=
  (C3_zero_count_staged_without_probe (staleEnv "abcde") 1674080000 exampleFeed []
    ⟨"abcde", []⟩ ⟨"", "", "success", [], 0⟩ rfl rfl rfl).1

/-- C4: if the item-count query of a feed is answered with status 200 and a
success envelope with a nonzero count, the loop iteration appends the feed to
the deletion set if and only if the probe of its feed URL ends in a transport
error or a status other than 200, and it returns the deletion set unchanged if
and only if the probe does not fail. -/
theorem C4_nonzero_count_decided_by_probe (env : Env) (since : Int) (feed : Feed)
    (del : List Feed) (w : World) (r : Response)
    (hget : env w.sent (Request.listIds w.token feed.FeedId since)
      = GetResult.ok ⟨200, Body.envelope r⟩)
    (hres : r.Result = "success") (hcount : r.Count ≠ 0) :
    ((checkStep env since feed del w).res = Outcome.ret (del ++ [feed]) ↔
      probeFails (env (w.sent ++ [Request.listIds w.token feed.FeedId since])
        (Request.get feed.FeedURL))) ∧
    ((checkStep env since feed del w).res = Outcome.ret del ↔
      ¬ probeFails (env (w.sent ++ [Request.listIds w.token feed.FeedId since])
        (Request.get feed.FeedURL))) := by
  have h := checkStep_ok env since feed del w r hget hres
  rw [if_neg hcount] at h
  rw [h]
  by_cases hp : probeFails (env (w.sent ++ [Request.listIds w.token feed.FeedId since])
      (Request.get feed.FeedURL)) <;> simp [hp]

/-- C4 at the sample feed, answered with count 3 and a 404 probe. -/
theorem C4_nonzero_count_decided_by_probe_witness :
    (checkStep unreachable404 1674080000 exampleFeed [] ⟨"abcde", []⟩).res =
      Outcome.ret ([] ++ [exampleFeed]) :=
  (C4_nonzero_count_decided_by_probe unreachable404 1674080000 exampleFeed []
    ⟨"abcde", []⟩ ⟨"", "", "success", [], 3⟩ rfl rfl (by decide)).1.mpr
    (Or.inr ⟨⟨404, Body.malformed "Not Found"⟩, rfl, by decide⟩)

/-- C5, evaluated at the failing input.  With the 5-byte token `abcde` and a
logout request that fails with a transport error (nil response), `Logout` logs
the error and then panics on the nil dereference of `defer resp.Body.Close()`. -/
theorem C5_logout_transport_error_panics :
    Logout logoutTimeout ⟨"abcde", []⟩ =
      ⟨[Event.log LogMsg.loggingOut, Event.request (Request.logout "abcde"),
          Event.log (LogMsg.logoutGetError "timeout")],
        ⟨"abcde", [Request.logout "abcde"]⟩, Outcome.panic Panic.nilDereference⟩ := by
  rfl

/-- C6: with valid arguments, if the authorize request is answered with status
200 and an envelope whose result is not `success`, the run panics with the
response error, the authorize request is the only request issued and the token
stays empty. -/
theorem C6_rejected_authorize_aborts (env : Env) (now : Int) (flags : Flags) (r : Response)
    (hvalid : validArgs flags)
    (hget : env [] (Request.authorize (trimSpace flags.email) (trimSpace flags.password)
        (trimSpace flags.client)) = GetResult.ok ⟨200, Body.envelope r⟩)
    (hres : r.Result ≠ "success") :
    (run env now flags).res = Outcome.panic (Panic.responseError r.Result r.Error) ∧
    requestsOf (run env now flags).out =
      [Request.authorize (trimSpace flags.email) (trimSpace flags.password)
        (trimSpace flags.client)] ∧
    (run env now flags).world.token = "" := by
  obtain ⟨h1, h2, h3⟩ := hvalid
  simp only [ne_eq] at h1 h2 h3
  have hA := Authorize_rejected env _ _ _ ⟨"", []⟩ r hget hres
  unfold run World.init
  rw [main_eq]
  simp only [h1, h2, h3, if_false]
  cases flags.commit <;>
    simp [Prog.bind_eq, hA, logPrintf, requestsOf]

/-- C6 at an authorize answer whose result is `error`. -/
theorem C6_rejected_authorize_aborts_witness :
    (run authorizeRejected 1700000000 (exampleFlags true)).res =
      Outcome.panic (Panic.responseError "error" "bad credentials") ∧
    requestsOf (run authorizeRejected 1700000000 (exampleFlags true)).out =
      [Request.authorize "me@example.invalid" "secret" "key"] ∧
    (run authorizeRejected 1700000000 (exampleFlags true)).world.token = "" :=
  C6_rejected_authorize_aborts authorizeRejected 1700000000 (exampleFlags true)
    ⟨"", "bad credentials", "error", [], 0⟩ (by decide) rfl (by decide)

/-- C7 fails as stated: every API call succeeds and the run returns, the one
staged feed is removed, but the authorize envelope carried an empty token, so
no logout request follows the remove-feed request. -/
theorem C7_short_token_no_logout :
    validArgs (exampleFlags true) ∧
    ApiOk (staleEnv "") (requestsOf (run (staleEnv "") 1700000000 (exampleFlags true)).out) ∧
    (run (staleEnv "") 1700000000 (exampleFlags true)).res = Outcome.ret () ∧
    requestsOf (run (staleEnv "") 1700000000 (exampleFlags true)).out =
      [Request.authorize "me@example.invalid" "secret" "key",
        Request.listIds "" 7 1674080000, Request.removeFeed "" 7] := by
  refine ⟨by decide, scripted_apiOk _ _ _ _, rfl, rfl⟩

/-- C7, amended: in a commit run with valid arguments in which every API call
succeeds, authorize returns the feeds, the evaluation loop returns the deletion
set `del`, the run returns, and its requests are evaluation requests only
(`pre`), then one remove-feed request per feed of `del` carrying the identifier
of that feed, in order, then one logout request carrying the token when the
token has at least 5 bytes and nothing when it is shorter. -/
theorem C7_commit_removes_each_then_logout (env : Env) (now : Int)
    (email password client : String) (deleteAge : Int)
    (hvalid : validArgs ⟨email, password, client, deleteAge, true⟩)
    (hok : ApiOk env
      (requestsOf (run env now ⟨email, password, client, deleteAge, true⟩).out)) :
    ∃ feeds del pre,
      (Authorize env (trimSpace email) (trimSpace password) (trimSpace client)
        World.init).res = Outcome.ret feeds ∧
      (checkLoop env (sinceCutoff now deleteAge) feeds []
        (Authorize env (trimSpace email) (trimSpace password) (trimSpace client)
          World.init).world).res = Outcome.ret del ∧
      (run env now ⟨email, password, client, deleteAge, true⟩).res = Outcome.ret () ∧
      requestsOf (run env now ⟨email, password, client, deleteAge, true⟩).out =
        pre ++
        del.map (fun f => Request.removeFeed
          (run env now ⟨email, password, client, deleteAge, true⟩).world.token f.FeedId) ++
        (if 5 ≤ len (run env now ⟨email, password, client, deleteAge, true⟩).world.token then
          [Request.logout (run env now ⟨email, password, client, deleteAge, true⟩).world.token]
          else []) ∧
      ∀ r ∈ pre, r.isEvaluation = true :=
  main_commit_of_apiOk env now email password client deleteAge World.init hvalid hok

/-- C7, amended, at a run with the token `abcde` and one stale feed. -/
theorem C7_commit_removes_each_then_logout_witness :
    ∃ feeds del pre,
      (Authorize (staleEnv "abcde") (trimSpace "me@example.invalid") (trimSpace "secret")
        (trimSpace "key") World.init).res = Outcome.ret feeds ∧
      (checkLoop (staleEnv "abcde") (sinceCutoff 1700000000 300) feeds []
        (Authorize (staleEnv "abcde") (trimSpace "me@example.invalid") (trimSpace "secret")
          (trimSpace "key") World.init).world).res = Outcome.ret del ∧
      (run (staleEnv "abcde") 1700000000
        ⟨"me@example.invalid", "secret", "key", 300, true⟩).res = Outcome.ret () ∧
      requestsOf (run (staleEnv "abcde") 1700000000
          ⟨"me@example.invalid", "secret", "key", 300, true⟩).out =
        pre ++
        del.map (fun f => Request.removeFeed
          (run (staleEnv "abcde") 1700000000
            ⟨"me@example.invalid", "secret", "key", 300, true⟩).world.token f.FeedId) ++
        (if 5 ≤ len (run (staleEnv "abcde") 1700000000
            ⟨"me@example.invalid", "secret", "key", 300, true⟩).world.token then
          [Request.logout (run (staleEnv "abcde") 1700000000
            ⟨"me@example.invalid", "secret", "key", 300, true⟩).world.token]
          else []) ∧
      ∀ r ∈ pre, r.isEvaluation = true :=
  C7_commit_removes_each_then_logout (staleEnv "abcde") 1700000000
    "me@example.invalid" "secret" "key" 300 (by decide) (scripted_apiOk _ _ _ _)

/-- C8 fails as stated: with a delete age of 2^62 days the product
`24 * 60 * 60 * deleteAge` wraps to 0 in `int64`, so the cutoff is `now`
itself. -/
theorem C8_since_cutoff_wraps :
    isInt64 1700000000 ∧ isInt64 4611686018427387904 ∧
      sinceCutoff 1700000000 4611686018427387904 = 1700000000 ∧
      sinceCutoff 1700000000 4611686018427387904 ≠
        1700000000 - 4611686018427387904 * 86400 := by
  decide

/-- C8, amended: whenever `now - deleteAge * 86400` is an `int64` value the
cutoff equals it exactly; for a delete age of 300 that is `now - 25920000`. -/
theorem C8_since_cutoff_exact_in_range (now deleteAge : Int)
    (h : isInt64 (now - deleteAge * 86400)) :
    sinceCutoff now deleteAge = now - deleteAge * 86400 ∧
      (deleteAge = 300 → sinceCutoff now deleteAge = now - 25920000) := by
  unfold isInt64 at h
  have key : sinceCutoff now deleteAge = now - deleteAge * 86400 := by
    unfold sinceCutoff wrap64
    omega
  exact ⟨key, fun h300 => by rw [key, h300]; norm_num⟩

/-- C8, amended, at now = 1700000000 and a delete age of 300. -/
theorem C8_since_cutoff_exact_in_range_witness :
    isInt64 (1700000000 - 300 * 86400) ∧
      sinceCutoff 1700000000 300 = 1700000000 - 300 * 86400 ∧
      sinceCutoff 1700000000 300 = 1700000000 - 25920000 :=
  ⟨by decide, (C8_since_cutoff_exact_in_range 1700000000 300 (by decide)).1,
    (C8_since_cutoff_exact_in_range 1700000000 300 (by decide)).2 rfl⟩

/-- C9 fails as stated: the token `ééé` has 3 characters but 6 bytes, and
`Logout` sends a logout request. -/
theorem C9_three_characters_still_log_out :
    String.length "ééé" < 5 ∧
      Logout allSuccess ⟨"ééé", []⟩ =
        ⟨[Event.log LogMsg.loggingOut, Event.request (Request.logout "ééé")],
          ⟨"ééé", [Request.logout "ééé"]⟩, Outcome.ret ()⟩ := by
  constructor
  · decide
  · rfl

/-- C9, amended: `Logout` does nothing and returns when the token is shorter
than 5 bytes, and sends exactly one logout request, carrying the token, when
the token has at least 5 bytes. -/
theorem C9_logout_gated_on_byte_length (env : Env) (w : World) :
    (len w.token < 5 → Logout env w = ⟨[], w, Outcome.ret ()⟩) ∧
    (5 ≤ len w.token →
      requestsOf (Logout env w).out = [Request.logout w.token] ∧
      (Logout env w).world.sent = w.sent ++ [Request.logout w.token]) :=
  ⟨Logout_short env w, Logout_requests env w⟩

/-- C9, amended, at the tokens `abc` and `abcde`. -/
theorem C9_logout_gated_on_byte_length_witness :
    (len "abc" < 5 ∧ Logout allSuccess ⟨"abc", []⟩ = ⟨[], ⟨"abc", []⟩, Outcome.ret ()⟩) ∧
    (5 ≤ len "abcde" ∧
      requestsOf (Logout allSuccess ⟨"abcde", []⟩).out = [Request.logout "abcde"]) :=
  ⟨⟨by decide, (C9_logout_gated_on_byte_length allSuccess ⟨"abc", []⟩).1 (by decide)⟩,
    ⟨by decide,
      ((C9_logout_gated_on_byte_length allSuccess ⟨"abcde", []⟩).2 (by decide)).1⟩⟩

/-- C10 fails as stated: the sample feed has 3 recent items and its URL
answers 404; it is appended to the deletion set, and the only log line carries
the feed URL, not the title. -/
theorem C10_unreachable_feed_title_not_logged :
    (checkStep unreachable404 1674080000 exampleFeed [] ⟨"abcde", []⟩).res =
      Outcome.ret ([] ++ [exampleFeed]) ∧
    (checkStep unreachable404 1674080000 exampleFeed [] ⟨"abcde", []⟩).out =
      [Event.request (Request.listIds "abcde" 7 1674080000),
        Event.request (Request.get "http://example.invalid/rss"),
        Event.log (LogMsg.httpErrorResolving 404 "http://example.invalid/rss")] ∧
    titleLogged exampleFeed.Title
      (checkStep unreachable404 1674080000 exampleFeed [] ⟨"abcde", []⟩).out = false := by
  refine ⟨rfl, rfl, ?_⟩
  decide

/-- C10, amended: a loop iteration that appends the feed to the deletion set
ran on a successful item-count query, and either the count was 0 and the trace
ends with the log line `STALE title`, or the count was nonzero and the trace
ends with a log line carrying the feed URL: the transport error of the probe,
or its status other than 200. -/
theorem C10_staged_feed_log_line (env : Env) (since : Int) (feed : Feed)
    (del : List Feed) (w : World)
    (h : (checkStep env since feed del w).res = Outcome.ret (del ++ [feed])) :
    ∃ r, env w.sent (Request.listIds w.token feed.FeedId since)
        = GetResult.ok ⟨200, Body.envelope r⟩ ∧ r.Result = "success" ∧
      ((r.Count = 0 ∧
          (checkStep env since feed del w).out =
            [Event.request (Request.listIds w.token feed.FeedId since),
              Event.log (LogMsg.stale feed.Title)]) ∨
        (r.Count ≠ 0 ∧
          ((∃ err, (checkStep env since feed del w).out =
              [Event.request (Request.listIds w.token feed.FeedId since),
                Event.request (Request.get feed.FeedURL),
                Event.log (LogMsg.errorResolving feed.FeedURL err)]) ∨
            (∃ code, code ≠ 200 ∧ (checkStep env since feed del w).out =
              [Event.request (Request.listIds w.token feed.FeedId since),
                Event.request (Request.get feed.FeedURL),
                Event.log (LogMsg.httpErrorResolving code feed.FeedURL)])))) := by
  obtain ⟨r, hget, hres⟩ := checkStep_ret_inv env since feed del _ w h
  refine ⟨r, hget, hres, ?_⟩
  have hk := checkStep_ok env since feed del w r hget hres
  by_cases hc : r.Count = 0
  · rw [if_pos hc] at hk
    exact Or.inl ⟨hc, by rw [hk]⟩
  · rw [if_neg hc] at hk
    rw [hk] at h ⊢
    refine Or.inr ⟨hc, ?_⟩
    rcases hp : env (w.sent ++ [Request.listIds w.token feed.FeedId since])
      (Request.get feed.FeedURL) with ⟨code, body⟩ | ⟨err, resp⟩
    · by_cases h200 : code = 200
      · rw [hp] at h
        simp [probeFails, h200] at h
      · exact Or.inr ⟨code, h200, by simp [probeLog, h200]⟩
    · exact Or.inl ⟨err, by simp [probeLog]⟩

/-- C10, amended, at the sample feed, answered with count 0. -/
theorem C10_staged_feed_log_line_witness :
    (checkStep (staleEnv "abcde") 1674080000 exampleFeed [] ⟨"abcde", []⟩).res =
      Outcome.ret ([] ++ [exampleFeed]) ∧
    ∃ r, staleEnv "abcde" [] (Request.listIds "abcde" exampleFeed.FeedId 1674080000)
        = GetResult.ok ⟨200, Body.envelope r⟩ ∧ r.Result = "success" ∧
      ((r.Count = 0 ∧
          (checkStep (staleEnv "abcde") 1674080000 exampleFeed [] ⟨"abcde", []⟩).out =
            [Event.request (Request.listIds "abcde" exampleFeed.FeedId 1674080000),
              Event.log (LogMsg.stale exampleFeed.Title)]) ∨
        (r.Count ≠ 0 ∧
          ((∃ err,
              (checkStep (staleEnv "abcde") 1674080000 exampleFeed [] ⟨"abcde", []⟩).out =
              [Event.request (Request.listIds "abcde" exampleFeed.FeedId 1674080000),
                Event.request (Request.get exampleFeed.FeedURL),
                Event.log (LogMsg.errorResolving exampleFeed.FeedURL err)]) ∨
            (∃ code, code ≠ 200 ∧
              (checkStep (staleEnv "abcde") 1674080000 exampleFeed [] ⟨"abcde", []⟩).out =
              [Event.request (Request.listIds "abcde" exampleFeed.FeedId 1674080000),
                Event.request (Request.get exampleFeed.FeedURL),
                Event.log (LogMsg.httpErrorResolving code exampleFeed.FeedURL)])))) :=
  ⟨rfl, C10_staged_feed_log_line (staleEnv "abcde") 1674080000 exampleFeed []
    ⟨"abcde", []⟩ rfl⟩

/-! ## Further properties -/

/-- When `eCheck` receives a non-nil error and the token has at least 5 bytes,
exactly one logout request, carrying the token, is issued and the call
panics. -/
theorem eCheck_logs_out_once (env : Env) (msg err : String) (w : World)
    (h : 5 ≤ len w.token) :
    requestsOf (eCheck env msg (some err) w).out = [Request.logout w.token] ∧
      ∃ p, (eCheck env msg (some err) w).res = Outcome.panic p := by
  refine ⟨?_, eCheck_some_panics env msg err w⟩
  simp only [eCheck, bind_def, Prog.bind_eq]
  cases hr : (Logout env w).res with
  | ret a =>
    simp only [requestsOf_append, (Logout_requests env w h).1]
    rfl
  | panic p => exact (Logout_requests env w h).1

/-- A transport error on the item-count call with the token `abcde`. -/
theorem eCheck_logs_out_once_witness :
    5 ≤ len "abcde" ∧
      requestsOf (eCheck allSuccess "Error http list ids" (some "timeout")
        ⟨"abcde", []⟩).out = [Request.logout "abcde"] :=
  ⟨by decide, (eCheck_logs_out_once allSuccess "Error http list ids" "timeout"
    ⟨"abcde", []⟩ (by decide)).1⟩

/-- With valid arguments, if authorize returns the feeds and the evaluation
loop returns the deletion set `del`, the run reports exactly one stale-feed
count, the length of `del`, whatever the commit flag. -/
theorem reported_count_is_deletion_set_size (env : Env) (now : Int) (flags : Flags)
    (w : World) (feeds del : List Feed)
    (hvalid : validArgs flags)
    (hA : (Authorize env (trimSpace flags.email) (trimSpace flags.password)
      (trimSpace flags.client) w).res = Outcome.ret feeds)
    (hL : (checkLoop env (sinceCutoff now flags.deleteAge) feeds []
      (Authorize env (trimSpace flags.email) (trimSpace flags.password)
        (trimSpace flags.client) w).world).res = Outcome.ret del) :
    staleCounts (main env now flags w).out = [del.length] := by
  have hAq := fun x y z w => staleCounts_of_emits
    (emits_mono (Authorize_quiet env x y z) quiet_notStaleFound) w
  have hLq := fun s f d w => staleCounts_of_emits
    (emits_mono (checkLoop_quiet env s f d) quiet_notStaleFound) w
  have hO := fun w => staleCounts_of_emits
    (emits_mono (Logout_quiet env) quiet_notStaleFound) w
  have hD := fun d w => staleCounts_of_emits (deleteLoop_notStaleFound env d) w
  obtain ⟨h1, h2, h3⟩ := hvalid
  simp only [ne_eq] at h1 h2 h3
  rw [main_eq]
  simp only [h1, h2, h3, if_false]
  cases flags.commit <;>
  · simp only [Bool.false_eq_true, if_false, if_true, staleCounts_bind, hAq, hLq, hO, hD,
      hA, hL]
    simp only [logPrintf, staleCounts, Prog.pure, List.filterMap_cons, List.filterMap_nil,
      List.nil_append, List.append_nil, List.singleton_append]
    repeat' split
    all_goals first | rfl | simp_all

/-- The dry run with one stale feed reports the count 1. -/
theorem reported_count_is_deletion_set_size_witness :
    staleCounts (main (staleEnv "abcde") 1700000000 (exampleFlags false) World.init).out =
      [[exampleFeed].length] :=
  reported_count_is_deletion_set_size (staleEnv "abcde") 1700000000 (exampleFlags false)
    World.init [exampleFeed] [exampleFeed] (by decide) rfl rfl

/-- The deletion set the evaluation loop returns is the initial one followed
by a sublist of the feeds, in feed order. -/
theorem deletion_set_is_sublist_of_feeds (env : Env) (since : Int) (feeds : List Feed) :
    ∀ (del d : List Feed) (w : World),
      (checkLoop env since feeds del w).res = Outcome.ret d →
      ∃ s, s.Sublist feeds ∧ d = del ++ s := by
  induction feeds with
  | nil =>
    intro del d w h
    simp only [checkLoop, pure_run, Outcome.ret.injEq] at h
    exact ⟨[], List.Sublist.refl _, by simp [h]⟩
  | cons feed rest ih =>
    intro del d w h
    unfold checkLoop at h
    simp only [bind_def, Prog.bind_eq] at h
    cases hs : (checkStep env since feed del w).res with
    | panic p =>
      rw [hs] at h
      cases h
    | ret d1 =>
      rw [hs] at h
      obtain ⟨s, hsub, hd⟩ := ih d1 d _ h
      rcases checkStep_ret_cases env since feed del d1 w hs with h1 | h1
      · exact ⟨s, List.Sublist.cons _ hsub, by rw [hd, h1]⟩
      · exact ⟨feed :: s, List.Sublist.cons₂ _ hsub, by rw [hd, h1]; simp⟩

/-- In scenario A the deletion set is the first feed alone. -/
theorem deletion_set_is_sublist_of_feeds_witness :
    ∃ s, s.Sublist [exampleFeed, secondFeed] ∧ [exampleFeed] = [] ++ s :=
  deletion_set_is_sublist_of_feeds scenarioA 1674080000 [exampleFeed, secondFeed] []
    [exampleFeed] ⟨"abcde", []⟩ rfl

/-- Scenario A, end to end (dry run): feed 7 has no recent items and is staged
without a probe, feed 8 has five and its URL answers 200, the reported count is
1, nothing is removed and the run logs out once. -/
theorem scenarioA_run :
    run scenarioA 1700000000 (exampleFlags false) =
      ⟨[Event.log LogMsg.dryRunStart, Event.log LogMsg.authorizing,
          Event.request (Request.authorize "me@example.invalid" "secret" "key"),
          Event.log (LogMsg.authorizeSuccess 2), Event.log LogMsg.checking,
          Event.request (Request.listIds "abcde" 7 1674080000),
          Event.log (LogMsg.stale "Example Feed"),
          Event.request (Request.listIds "abcde" 8 1674080000),
          Event.request (Request.get "http://second.invalid/rss"),
          Event.log (LogMsg.staleFound 1),
          Event.log LogMsg.loggingOut, Event.request (Request.logout "abcde"),
          Event.log LogMsg.dryRunEnd],
        ⟨"abcde", [Request.authorize "me@example.invalid" "secret" "key",
          Request.listIds "abcde" 7 1674080000, Request.listIds "abcde" 8 1674080000,
          Request.get "http://second.invalid/rss", Request.logout "abcde"]⟩,
        Outcome.ret ()⟩ := by
  rfl

end FeedClean
